import Mathlib

/-!
Verification of the "ssolitaire" Vegas-solitaire engine (src/main.py, with
one state-machine fragment from src/broken.py) against its natural-language
specification.

The Python source is shallowly embedded: every mutable operation becomes an
explicit state-passing Lean function, and the global `random` module is made
explicit as a stream of natural-number draws threaded through the code that
consumes it.  `random.choice(seq)` is `seq[draw % len(seq)]`,
`random.shuffle` is the stdlib Fisher–Yates driven by the stream,
`random.random()` comparisons use draws in an order-faithful way.
-/

namespace SSolitaire

/-- The ambient pseudo-random state of Python's global `random` module,
modelled as a stream of natural-number draws (an exhausted stream keeps
yielding 0). -/
def Rng : Type := List Nat

instance : DecidableEq Rng := by
  unfold Rng
  infer_instance

/-- Take one draw from the stream. -/
def rngNext : Rng → Nat × Rng
  | [] => (0, [])
  | n :: rest => (n, rest)

/-- Source `random.choice(seq)`: pick `seq[draw % len(seq)]`.  Python raises on an
empty sequence; the call sites below only reach it with a non-empty list,
and the `none` result marks the exception path. -/
def pyChoice {α : Type} (xs : List α) (g : Rng) : Option α × Rng :=
  let (n, g') := rngNext g
  (xs.get? (n % xs.length), g')

/-- Source `random.choice` returning the chosen index instead of the element. -/
def pyChoiceIdx {α : Type} (xs : List α) (g : Rng) : Nat × Rng :=
  let (n, g') := rngNext g
  (n % xs.length, g')

/-- Swap positions `j ≤ i` of a list, written in take/drop form (the effect
of Python's `x[i], x[j] = x[j], x[i]`).  Out-of-range or equal indices leave
the list unchanged. -/
def pySwap {α : Type} (l : List α) (j i : Nat) : List α :=
  if h : j < i ∧ i < l.length then
    match l.get? j, l.get? i with
    | some a, some b =>
        l.take j ++ b :: ((l.drop (j+1)).take (i - j - 1) ++ a :: l.drop (i+1))
    | _, _ => l
  else l

/-- One countdown pass of `random.shuffle`'s Fisher–Yates loop:
`for i in reversed(range(1, len(x))): j = randbelow(i+1); swap`. -/
def pyShuffleAux {α : Type} : Nat → List α → Rng → List α × Rng
  | 0, l, g => (l, g)
  | Nat.succ i, l, g =>
      let (n, g') := rngNext g
      let j := n % (i + 2)
      pyShuffleAux i (pySwap l j (i+1)) g'

/-- Source `random.shuffle(x)` on the explicit stream. -/
def pyShuffle {α : Type} (l : List α) (g : Rng) : List α × Rng :=
  pyShuffleAux (l.length - 1) l g

/-! ### Card model (src/main.py lines 306-373) -/

inductive Suit
  | hearts | diamonds | clubs | spades
  deriving DecidableEq, Repr

/-- Source `Suit.color`: Hearts/Diamonds are red, Clubs/Spades black. -/
def Suit.color : Suit → Bool
  | .hearts => true
  | .diamonds => true
  | .clubs => false
  | .spades => false

/-- Display glyph of a suit (the `Suit` enum's value string). -/
def Suit.symbol : Suit → String
  | .hearts => "♥"
  | .diamonds => "♦"
  | .clubs => "♣"
  | .spades => "♠"

/-- Unicode code point of the glyph, the comparison key Python uses when it
sorts by `c.suit.value` (♠ U+2660 < ♣ U+2663 < ♥ U+2665 < ♦ U+2666). -/
def Suit.valueCode : Suit → Nat
  | .hearts => 0x2665
  | .diamonds => 0x2666
  | .clubs => 0x2663
  | .spades => 0x2660

/-- Iteration order of `for suit in Suit` (the enum declaration order). -/
def suitOrder : List Suit := [.hearts, .diamonds, .clubs, .spades]

inductive Rank
  | ace | two | three | four | five | six | seven
  | eight | nine | ten | jack | queen | king
  deriving DecidableEq, Repr

/-- Source `Rank.number`: the ordinal 1..13. -/
def Rank.number : Rank → Nat
  | .ace => 1 | .two => 2 | .three => 3 | .four => 4 | .five => 5
  | .six => 6 | .seven => 7 | .eight => 8 | .nine => 9 | .ten => 10
  | .jack => 11 | .queen => 12 | .king => 13

/-- Source `Rank.symbol`: the display symbol. -/
def Rank.symbol : Rank → String
  | .ace => "A" | .two => "2" | .three => "3" | .four => "4" | .five => "5"
  | .six => "6" | .seven => "7" | .eight => "8" | .nine => "9" | .ten => "10"
  | .jack => "J" | .queen => "Q" | .king => "K"

/-- Declaration order of the `Rank` enum. -/
def rankOrder : List Rank :=
  [.ace, .two, .three, .four, .five, .six, .seven,
   .eight, .nine, .ten, .jack, .queen, .king]

inductive Difficulty
  | easy | medium | hard
  deriving DecidableEq, Repr

/-- A card: suit/rank identity plus the mutable `face_up` presentation
flag.  Lean's structural equality compares all three fields (the
"byte-for-byte" equality of Board snapshots); Python's `Card.__eq__`, which
ignores `face_up`, is `sameId` below. -/
structure Card where
  suit : Suit
  rank : Rank
  faceUp : Bool := false
  deriving DecidableEq, Repr

/-- Python's `Card.__eq__`: identity is (suit, rank) only. -/
def Card.sameId (a b : Card) : Bool :=
  a.suit == b.suit && a.rank == b.rank

/-- Source `str(card)`: `[--]` when face-down, `[{rank}{suit}]` when face-up. -/
def Card.str (c : Card) : String :=
  if c.faceUp then "[" ++ c.rank.symbol ++ c.suit.symbol ++ "]" else "[--]"

/-- Source `GameGenerator._create_deck`: 4 suits × 13 ranks, all face-down. -/
def createDeck : List Card :=
  suitOrder.flatMap (fun s => rankOrder.map (fun r => { suit := s, rank := r }))

/-! ### Deal generator (src/main.py lines 386-601)

`GameGenerator` takes no seed: every random decision reads the global
`random` module, which appears below as the explicit `Rng` argument. -/

/-- Insertion of `a` (an element originally *earlier* in the list) into
the already-sorted tail: it passes only elements strictly below it, so it
lands before equal keys, which makes the sort stable (agreeing with
Python's stable `list.sort`). -/
def insertBy {α : Type} (lt : α → α → Bool) (a : α) : List α → List α
  | [] => [a]
  | b :: rest => if lt b a then b :: insertBy lt a rest else a :: b :: rest

/-- Stable sort by an arbitrary strict comparison. -/
def stableSortBy {α : Type} (lt : α → α → Bool) : List α → List α
  | [] => []
  | a :: rest => insertBy lt a (stableSortBy lt rest)

/-- The `organized` dict of `_organize_cards`: one card queue per suit,
keys iterated in `Suit` declaration order (Hearts, Diamonds, Clubs,
Spades). -/
structure Organized where
  hearts : List Card
  diamonds : List Card
  clubs : List Card
  spades : List Card
  deriving DecidableEq, Repr

def Organized.get (o : Organized) : Suit → List Card
  | .hearts => o.hearts
  | .diamonds => o.diamonds
  | .clubs => o.clubs
  | .spades => o.spades

def Organized.set (o : Organized) : Suit → List Card → Organized
  | .hearts, l => { o with hearts := l }
  | .diamonds, l => { o with diamonds := l }
  | .clubs, l => { o with clubs := l }
  | .spades, l => { o with spades := l }

/-- Total number of cards held across the four queues. -/
def Organized.size (o : Organized) : Nat :=
  o.hearts.length + o.diamonds.length + o.clubs.length + o.spades.length

/-- Source `for suit in organized: remaining_cards.extend(organized[suit])`. -/
def Organized.flattenSuits (o : Organized) : List Card :=
  o.hearts ++ o.diamonds ++ o.clubs ++ o.spades

/-- Strict comparison by rank ordinal (`key=lambda c: c.rank.number`). -/
def rankLt (a b : Card) : Bool := a.rank.number < b.rank.number

/-- The per-suit rank-sorted bucket of `_organize_cards`. -/
def suitBucket (deck : List Card) (s : Suit) : List Card :=
  stableSortBy rankLt (deck.filter (fun c => c.suit == s))

/-- Source `GameGenerator._organize_cards`: bucket the deck by suit, sort each
bucket rank-ascending, and on HARD shuffle each bucket (reading the global
RNG), suits in declaration order. -/
def organizeCards (deck : List Card) (d : Difficulty) (g : Rng) :
    Organized × Rng :=
  match d with
  | .hard =>
      match pyShuffle (suitBucket deck .hearts) g with
      | (h, g1) =>
        match pyShuffle (suitBucket deck .diamonds) g1 with
        | (dm, g2) =>
          match pyShuffle (suitBucket deck .clubs) g2 with
          | (c, g3) =>
            match pyShuffle (suitBucket deck .spades) g3 with
            | (s, g4) =>
                ({ hearts := h, diamonds := dm, clubs := c, spades := s }, g4)
  | _ =>
      ({ hearts := suitBucket deck .hearts,
         diamonds := suitBucket deck .diamonds,
         clubs := suitBucket deck .clubs,
         spades := suitBucket deck .spades }, g)

/-- Source `reserve_count` per difficulty in `_build_tableau`. -/
def reserveCount : Difficulty → Nat
  | .easy => 2
  | .medium => 3
  | .hard => 4

/-- Pull the first `r` cards of every suit queue aside as foundation
bases (`organized[suit][:reserve_count]`, suits in declaration order). -/
def extractBases (o : Organized) (r : Nat) : List Card × Organized :=
  (o.hearts.take r ++ o.diamonds.take r ++ o.clubs.take r ++ o.spades.take r,
   { hearts := o.hearts.drop r, diamonds := o.diamonds.drop r,
     clubs := o.clubs.drop r, spades := o.spades.drop r })

/-- Pop the last card of a suit queue (`organized[suit].pop()`). -/
def popSuit (o : Organized) (s : Suit) : Option Card × Organized :=
  match (o.get s).getLast? with
  | some c => (some c, o.set s ((o.get s).dropLast))
  | none => (none, o)

/-- The `while not organized[suit]` retry loop of `_select_tableau_card`:
choose a suit, and while its queue is empty remove it from the candidate
list and choose again (returning `None` when no suits remain).  The fuel is
the candidate-list length, which the loop strictly decreases. -/
def chooseNonemptySuit : Nat → Organized → List Suit → Rng →
    Option Suit × Rng
  | 0, _, _, g => (none, g)
  | Nat.succ fuel, o, suits, g =>
      match pyChoice suits g with
      | (none, g') => (none, g')
      | (some s, g') =>
          if (o.get s).isEmpty then
            let suits' := suits.erase s
            if suits'.isEmpty then (none, g')
            else chooseNonemptySuit fuel o suits' g'
          else (some s, g')

/-- The EASY preference of `_select_tableau_card`: the first suit (in
declaration order) whose highest remaining card has ordinal `> 10`. -/
def easyPickSuit (o : Organized) (d : Difficulty) : Option Suit :=
  if d == Difficulty.easy then
    suitOrder.find? (fun s =>
      match (o.get s).getLast? with
      | some c => decide (10 < c.rank.number)
      | none => false)
  else none

/-- Source `GameGenerator._select_tableau_card`.  On EASY, first scan the suits in
declaration order for one whose highest remaining card has ordinal `> 10`
and pop it; otherwise (all difficulties) pick a random non-empty suit and
pop its last card. -/
def selectTableauCard (o : Organized) (d : Difficulty) (g : Rng) :
    Option Card × Organized × Rng :=
  match easyPickSuit o d with
  | some s =>
      match popSuit o s with
      | (c, o') => (c, o', g)
  | none =>
      match chooseNonemptySuit (suitOrder.length + 1) o suitOrder g with
      | (none, g') => (none, o, g')
      | (some s, g') =>
          match popSuit o s with
          | (c, o') => (c, o', g')

/-- Source `GameGenerator._select_compatible_card`: choose among the non-empty
suits (the color-compatibility filter is commented out in the source, so
the `target` card is unused) and pop the chosen queue. -/
def selectCompatibleCard (o : Organized) (_target : Card) (_d : Difficulty)
    (g : Rng) : Option Card × Organized × Rng :=
  if (suitOrder.filter (fun s => !(o.get s).isEmpty)).isEmpty then
    (none, o, g)
  else
    match pyChoice (suitOrder.filter (fun s => !(o.get s).isEmpty)) g with
    | (none, g') => (none, o, g')
    | (some s, g') =>
        match popSuit o s with
        | (c, o') => (c, o', g')

/-- The `while len(tableau_cards) < cards_needed` fill loop of
`_build_tableau`: append one compatible card per iteration (a `None` from
the selector would crash Python at the orientation step, so it aborts the
construction here). -/
def fillPile (d : Difficulty) : Nat → Card → List Card → Organized → Rng →
    Option (List Card × Organized × Rng)
  | 0, _, acc, o, g => some (acc, o, g)
  | Nat.succ n, lastCard, acc, o, g =>
      match selectCompatibleCard o lastCard d g with
      | (none, _, _) => none
      | (some c, o', g') => fillPile d n lastCard (acc ++ [c]) o' g'

/-- Build the raw card list of one tableau pile: first the selected
"face-up" card, then `needed - 1` fillers. -/
def buildPileCards (d : Difficulty) (needed : Nat) (o : Organized) (g : Rng) :
    Option (List Card × Organized × Rng) :=
  match selectTableauCard o d g with
  | (none, _, _) => none
  | (some c, o', g') => fillPile d (needed - 1) c [c] o' g'

/-- Source `card.face_up = (j == len(tableau_cards) - 1)`: every card of the pile
list ends face-down except the final one, which ends face-up. -/
def orientPile : List Card → List Card
  | [] => []
  | [c] => [{ c with faceUp := true }]
  | c :: c' :: rest => { c with faceUp := false } :: orientPile (c' :: rest)

/-- The `for i in range(7)` pile loop, parameterized by the pile sizes
still to build. -/
def buildPiles (d : Difficulty) : List Nat → Organized → Rng →
    Option (List (List Card) × Organized × Rng)
  | [], o, g => some ([], o, g)
  | n :: rest, o, g =>
      match buildPileCards d n o g with
      | none => none
      | some (cards, o', g') =>
          match buildPiles d rest o' g' with
          | none => none
          | some (piles, o'', g'') => some (orientPile cards :: piles, o'', g'')

/-- Source `GameGenerator._build_tableau`: reserve the foundation bases, build the
seven piles, and return them with the remaining cards (leftover queues in
suit order, then the reserved bases). -/
def buildTableau (o : Organized) (d : Difficulty) (g : Rng) :
    Option (List (List Card) × List Card × Rng) :=
  let (bases, o1) := extractBases o (reserveCount d)
  match buildPiles d [1, 2, 3, 4, 5, 6, 7] o1 g with
  | none => none
  | some (piles, o2, g') => some (piles, o2.flattenSuits ++ bases, g')

/-! ### `_arrange_stock` (src/main.py lines 506-598) -/

/-- Pair each card with one `random.random()` draw, in list order (Python
computes the sort keys once, left to right). -/
def attachDraws : List Card → Rng → List (Card × Nat) × Rng
  | [], g => ([], g)
  | c :: rest, g =>
      let (n, g') := rngNext g
      let (r, g'') := attachDraws rest g'
      ((c, n) :: r, g'')

def boolLt (x y : Bool) : Bool := !x && y

/-- EASY stock key `(c.rank != ACE, c.rank != TWO, random.random())`,
compared lexicographically. -/
def easyKeyLt (a b : Card × Nat) : Bool :=
  let a1 : Bool := a.1.rank != Rank.ace
  let b1 : Bool := b.1.rank != Rank.ace
  let a2 : Bool := a.1.rank != Rank.two
  let b2 : Bool := b.1.rank != Rank.two
  if a1 != b1 then boolLt a1 b1
  else if a2 != b2 then boolLt a2 b2
  else a.2 < b.2

/-- MEDIUM stock key `(c.suit.value, c.rank.number)` — the suit glyph is
compared as a string, i.e. by code point. -/
def medKeyLt (a b : Card) : Bool :=
  a.suit.valueCode < b.suit.valueCode ||
    (a.suit.valueCode == b.suit.valueCode && a.rank.number < b.rank.number)

/-- Source `[sorted_cards[i:i + 4] for i in range(0, len(sorted_cards), 4)]`. -/
def chunksOf4 : List Card → List (List Card)
  | [] => []
  | c :: rest => ((c :: rest).take 4) :: chunksOf4 ((c :: rest).drop 4)
  termination_by l => l.length
  decreasing_by simp only [List.length_drop, List.length_cons]; omega

/-- HARD: split one suit's rank-sorted cards into maximal
consecutive-ascending "phases" (`analyze_suit_dependencies`).  The fold
state is (finished phases, current phase, sequence start). -/
def phaseStep (st : List (List Card) × List Card × Option Nat) (c : Card) :
    List (List Card) × List Card × Option Nat :=
  let (phases, current, seqStart) := st
  match seqStart with
  | none => (phases, current ++ [c], some c.rank.number)
  | some s =>
      if c.rank.number != s + current.length then
        ((if current.isEmpty then phases else phases ++ [current]),
         [c], some c.rank.number)
      else (phases, current ++ [c], some s)

def analyzeSuitDependencies (suitCards : List Card) : List (List Card) :=
  let (phases, current, _) := suitCards.foldl phaseStep ([], [], none)
  if current.isEmpty then phases else phases ++ [current]

/-- Sum of the lengths of a list of lists. -/
def sumLen {α : Type} (l : List (List α)) : Nat := (l.map List.length).sum

/-- Replace the first element equal to `a` by `b` (the value-level effect
of Python mutating a list object held inside another list). -/
def replaceFirst {α : Type} [DecidableEq α] : List α → α → α → List α
  | [], _, _ => []
  | x :: rest, a, b =>
      if x = a then b :: rest else x :: replaceFirst rest a b

/-- One iteration of the HARD interleaving `while all_phases:` loop. -/
inductive StepRes
  | done (acc : List Card) (g : Rng)
  | cont (phases : List (List Card)) (acc : List Card) (g : Rng)

/-- Source `all_phases` after the first pop of a loop iteration: the selected
phase (value `c :: selTail`) loses its head, then empty phases are
filtered out (`all_phases = [p for p in all_phases if p]`). -/
def popSel (phases : List (List Card)) (c : Card) (selTail : List Card) :
    List (List Card) :=
  (replaceFirst phases (c :: selTail) selTail).filter (fun p => !p.isEmpty)

/-- Second half of the loop body: with probability 0.3 (modelled as
`draw % 10 < 3`) pop a head from a second phase different from the
(already popped) selected one. -/
def interleaveStep2 (phases : List (List Card)) (acc : List Card)
    (c : Card) (selTail : List Card) (r : Nat) (g2 : Rng) : StepRes :=
  if r % 10 < 3 && decide (1 < (popSel phases c selTail).length) then
    if ((popSel phases c selTail).filter (fun p => p ≠ selTail)).isEmpty then
      .cont (popSel phases c selTail) (acc ++ [c]) g2
    else
      match pyChoice ((popSel phases c selTail).filter
          (fun p => p ≠ selTail)) g2 with
      | (none, g3) => .cont (popSel phases c selTail) (acc ++ [c]) g3
      | (some [], g3) => .cont (popSel phases c selTail) (acc ++ [c]) g3
      | (some (c2 :: othTail), g3) =>
          .cont (replaceFirst (popSel phases c selTail) (c2 :: othTail)
            othTail) (acc ++ [c] ++ [c2]) g3
  else .cont (popSel phases c selTail) (acc ++ [c]) g2

/-- One pass of the `while all_phases:` loop body: filter out empty
phases, pick one at random, pop its head, then possibly pop from a second
phase. -/
def interleaveStep (phases : List (List Card)) (acc : List Card) (g : Rng) :
    StepRes :=
  if phases.isEmpty then .done acc g else
  if (phases.filter (fun p => !p.isEmpty)).isEmpty then .done acc g else
  match (phases.filter (fun p => !p.isEmpty)).getD
      (pyChoiceIdx (phases.filter (fun p => !p.isEmpty)) g).1 [] with
  | [] => .done acc (pyChoiceIdx (phases.filter (fun p => !p.isEmpty)) g).2
  | c :: selTail =>
      interleaveStep2 phases acc c selTail
        (rngNext (pyChoiceIdx (phases.filter (fun p => !p.isEmpty)) g).2).1
        (rngNext (pyChoiceIdx (phases.filter (fun p => !p.isEmpty)) g).2).2

/-- The HARD interleaving loop.  Python's `while all_phases:` terminates
because every iteration pops at least one card; the fuel (instantiated
with the total card count, which `interleave_length` proves sufficient)
makes that measure explicit. -/
def interleave : Nat → List (List Card) → List Card → Rng →
    List Card × Rng
  | 0, _, acc, g => (acc, g)
  | Nat.succ fuel, phases, acc, g =>
      match interleaveStep phases acc g with
      | .done acc' g' => (acc', g')
      | .cont ph' acc' g' => interleave fuel ph' acc' g'

/-- Source `for card in cards: card.face_up = False` at the end of
`_arrange_stock`. -/
def setAllDown (l : List Card) : List Card :=
  l.map (fun c => { c with faceUp := false })

/-- Source `GameGenerator._arrange_stock`. -/
def arrangeStock (cards : List Card) (d : Difficulty) (g : Rng) :
    List Card × Rng :=
  match d with
  | .easy =>
      match attachDraws cards g with
      | (keyed, g1) =>
          (setAllDown ((stableSortBy easyKeyLt keyed).map Prod.fst), g1)
  | .medium =>
      match pyShuffle (chunksOf4 (stableSortBy medKeyLt cards)) g with
      | (shuffled, g1) => (setAllDown shuffled.flatten, g1)
  | .hard =>
      match pyShuffle (suitOrder.flatMap (fun s =>
          analyzeSuitDependencies (stableSortBy rankLt
            (cards.filter (fun c => c.suit == s))))) g with
      | (shuffled, g1) =>
          match interleave (sumLen shuffled) shuffled [] g1 with
          | (arranged, g2) => (setAllDown arranged, g2)

/-- Source `GameGenerator.generate_solvable_game` /
`GameGenerator._build_solvable_layout`: the full deal pipeline, returning
(tableau, foundation, stock, final RNG state).  `solution_path` is always
the empty list in the source and is omitted.  `none` marks the Python
exception paths (a selector returning `None`), which no reachable input
hits. -/
def generate_solvable_game (d : Difficulty) (g : Rng) :
    Option (List (List Card) × List (List Card) × List Card × Rng) :=
  let (org, g1) := organizeCards createDeck d g
  match buildTableau org d g1 with
  | none => none
  | some (piles, remaining, g2) =>
      let (stock, g3) := arrangeStock remaining d g2
      some (piles, [[], [], [], []], stock, g3)

/-! ### Move engine (src/main.py lines 609-1948, `VegasSolitaire`)

The live game's mutable fields (`tableau`, `foundation`, `stock`, `waste`,
`bank`) become an explicit `Board` record; each mutating method becomes a
function `Board → ... → Bool × Board`.  Python list indexing that would
raise `IndexError` (caught by the input handler, which leaves the board
untouched) is modelled by the failure branch returning the board
unchanged.  `List.set` beyond the list length is a no-op where Python
would raise; no reachable call site hits that case. -/

structure Board where
  tableau : List (List Card)
  foundation : List (List Card)
  stock : List Card
  waste : List Card
  bank : Int
  deriving DecidableEq, Repr

/-- Source `self.selected`: either the top waste card or a tableau position. -/
inductive Sel
  | fromWaste
  | fromTableau (pileIdx cardIdx : Nat)
  deriving DecidableEq, Repr

/-- Source `pile.index(card)` under Python's identity-only `Card.__eq__`. -/
def indexOfId (c : Card) (pile : List Card) : Nat :=
  pile.findIdx (fun x => x.sameId c)

/-- Source `VegasSolitaire._can_move_to_foundation` (lines 1790-1814): face-up,
not buried in any tableau pile (searched with identity equality), and the
empty-foundation Ace rule or the same-suit successor rule. -/
def can_move_to_foundation (b : Board) (c : Card) (fIdx : Nat) : Bool :=
  if !c.faceUp then false
  else if b.tableau.any (fun pile =>
      pile.any (fun x => x.sameId c) &&
        decide (indexOfId c pile < pile.length - 1)) then false
  else
    match (b.foundation.getD fIdx []).getLast? with
    | none => c.rank == Rank.ace
    | some top =>
        c.suit == top.suit && (c.rank.number == top.rank.number + 1)

/-- Source `VegasSolitaire._can_move_to_tableau` (lines 1816-1834): face-up, and
the empty-pile King rule or the face-up opposite-color predecessor rule. -/
def can_move_to_tableau (b : Board) (c : Card) (tIdx : Nat) : Bool :=
  if !c.faceUp then false
  else
    match (b.tableau.getD tIdx []).getLast? with
    | none => c.rank == Rank.king
    | some top =>
        top.faceUp && (c.suit.color != top.suit.color) &&
          (c.rank.number == top.rank.number - 1)

/-- After truncating a tableau pile, flip its new top card face-up if it
is face-down (`if pile and not pile[-1].face_up: pile[-1].face_up = True`). -/
def revealLast (pile : List Card) : List Card :=
  match pile.getLast? with
  | some top =>
      if !top.faceUp then pile.dropLast ++ [{ top with faceUp := true }]
      else pile
  | none => pile

/-- Source `VegasSolitaire._try_move_to_foundation` (lines 1725-1758).  On
success: remove the card from its source (revealing a tableau card if
needed), append it to the foundation, credit $5. -/
def try_move_to_foundation (b : Board) (sel : Option Sel) (fIdx : Nat) :
    Bool × Board :=
  match sel with
  | none => (false, b)
  | some .fromWaste =>
      match b.waste.getLast? with
      | none => (false, b)
      | some card =>
          if can_move_to_foundation b card fIdx then
            (true, { b with
              waste := b.waste.dropLast,
              foundation := b.foundation.set fIdx
                ((b.foundation.getD fIdx []) ++ [card]),
              bank := b.bank + 5 })
          else (false, b)
  | some (.fromTableau p i) =>
      match (b.tableau.getD p []).get? i with
      | none => (false, b)
      | some card =>
          if can_move_to_foundation b card fIdx then
            (true, { b with
              tableau := b.tableau.set p
                (revealLast ((b.tableau.getD p []).take i)),
              foundation := b.foundation.set fIdx
                ((b.foundation.getD fIdx []) ++ [card]),
              bank := b.bank + 5 })
          else (false, b)

/-- Source `VegasSolitaire._try_move_to_tableau` (lines 1760-1788).  On success
the whole slice from the selected card transfers, and a newly exposed
face-down source card flips face-up. -/
def try_move_to_tableau (b : Board) (sel : Option Sel) (tIdx : Nat) :
    Bool × Board :=
  match sel with
  | none => (false, b)
  | some .fromWaste =>
      match b.waste.getLast? with
      | none => (false, b)
      | some card =>
          if can_move_to_tableau b card tIdx then
            (true, { b with
              waste := b.waste.dropLast,
              tableau := b.tableau.set tIdx
                ((b.tableau.getD tIdx []) ++ [card]) })
          else (false, b)
  | some (.fromTableau p i) =>
      match (b.tableau.getD p []).get? i with
      | none => (false, b)
      | some c0 =>
          if can_move_to_tableau b c0 tIdx then
            let cards := (b.tableau.getD p []).drop i
            let tab1 := b.tableau.set p
              (revealLast ((b.tableau.getD p []).take i))
            (true, { b with
              tableau := tab1.set tIdx ((tab1.getD tIdx []) ++ cards) })
          else (false, b)

/-- The card a selection designates (`self.waste[-1]`, or
`self.tableau[source_idx][card_idx]`). -/
def selectedCard (b : Board) : Option Sel → Option Card
  | none => none
  | some .fromWaste => b.waste.getLast?
  | some (.fromTableau p i) => (b.tableau.getD p []).get? i

/-- The stock branch of `VegasSolitaire._handle_selection` (lines
1290-1306): pop the stock's tail card, turn it face-up, put it on top of
the waste.  Clicking an empty stock changes nothing. -/
def drawStock (b : Board) : Bool × Board :=
  match b.stock.getLast? with
  | some c =>
      (true, { b with
        stock := b.stock.dropLast,
        waste := b.waste ++ [{ c with faceUp := true }] })
  | none => (false, b)

/-- Source `VegasSolitaire._check_game_over` (line 1861): literally
`return False`. -/
def check_game_over (_b : Board) : Bool := false

/-- Source `VegasSolitaire._has_valid_moves` (lines 1863-1892). -/
def has_valid_moves (b : Board) : Bool :=
  (match b.waste.getLast? with
   | none => false
   | some card =>
       (List.range 4).any (fun i => can_move_to_foundation b card i) ||
       (List.range 7).any (fun i => can_move_to_tableau b card i)) ||
  (List.range 7).any (fun i =>
    let pile := b.tableau.getD i []
    (List.range pile.length).any (fun j =>
      match pile.get? j with
      | none => false
      | some card =>
          card.faceUp &&
            ((List.range 4).any (fun k => can_move_to_foundation b card k) ||
             (List.range 7).any (fun k =>
               k != i && can_move_to_tableau b card k))))

/-- Source `','.join(...)`. -/
def joinComma : List String → String
  | [] => ""
  | [s] => s
  | s :: s' :: rest => s ++ "," ++ joinComma (s' :: rest)

/-- Source `VegasSolitaire._get_possible_moves` (lines 1246-1288): the move list
as display strings, in generation order (waste moves first, then tableau
moves pile by pile). -/
def get_possible_moves (b : Board) : List String :=
  let wasteMoves :=
    match b.waste.getLast? with
    | none => []
    | some card =>
        ((List.range 4).filter (fun i => can_move_to_foundation b card i)).map
          (fun i => "Waste " ++ card.str ++ " → Foundation " ++ toString (i+1))
        ++ ((List.range 7).filter (fun i => can_move_to_tableau b card i)).map
          (fun i => "Waste " ++ card.str ++ " → Tableau " ++ toString (i+1))
  let tabMoves := (List.range 7).flatMap (fun i =>
    let pile := b.tableau.getD i []
    (List.range pile.length).flatMap (fun j =>
      match pile.get? j with
      | none => []
      | some card =>
          if !card.faceUp then []
          else
            ((List.range 4).filter
                (fun k => can_move_to_foundation b card k)).map
              (fun k => "Tableau " ++ toString (i+1) ++ " " ++ card.str ++
                " → Foundation " ++ toString (k+1))
            ++ ((List.range 7).filter
                (fun k => k != i && can_move_to_tableau b card k)).map
              (fun k => "Tableau " ++ toString (i+1) ++ " " ++
                joinComma (((b.tableau.getD i []).drop j).map Card.str) ++
                " → Tableau " ++ toString (k+1))))
  wasteMoves ++ tabMoves

/-- Occurrence of `pat` as a contiguous run of `s` (`pat in s` on Python
strings). -/
def containsSub (pat : List Char) : List Char → Bool
  | [] => pat.isPrefixOf []
  | c :: rest => pat.isPrefixOf (c :: rest) || containsSub pat rest

def strContains (s pat : String) : Bool := containsSub pat.data s.data

/-- ASCII lowering of one character (`str.lower()`; the move strings only
ever contain ASCII letters, digits, arrows and suit glyphs). -/
def asciiLower (c : Char) : Char :=
  if 65 ≤ c.toNat && c.toNat ≤ 90 then Char.ofNat (c.toNat + 32) else c

def strLower (s : String) : String := ⟨s.data.map asciiLower⟩

/-- Source `VegasSolitaire._prioritize_moves` (lines 1915-1926): partition the
move strings by substring matching and concatenate the four tiers. -/
def prioritize_moves (moves : List String) : List String :=
  let foundationMoves := moves.filter (fun m => strContains m "→ Foundation")
  let revealMoves := moves.filter (fun m => strContains (strLower m) "reveal")
  let kingMoves := moves.filter (fun m =>
    strContains m "King" && strContains (strLower m) "empty")
  let otherMoves := moves.filter (fun m =>
    !(foundationMoves ++ revealMoves ++ kingMoves).contains m)
  foundationMoves ++ revealMoves ++ kingMoves ++ otherMoves

/-- Source `VegasSolitaire._show_hint` (lines 1894-1913): always debit $7, then
either announce the first prioritized move or (after a `randint(1, 5)`
draw) one of five no-move messages, all of which tell the player to
draw. -/
def show_hint (b : Board) (g : Rng) : Board × String × Rng :=
  let b1 : Board := { b with bank := b.bank - 7 }
  let moves := get_possible_moves b
  if moves.isEmpty then
    let (n0, g') := rngNext g
    let n := 1 + n0 % 5
    (b1,
     if n == 1 then "Zeynep: We gotta draw now... No moves left!"
     else if n == 2 then "Zeynep: I\x27m not sure about this one... Draw a card!"
     else if n == 3 then "Zeynep: I think you\x27re stuck... Draw a card!"
     else if n == 4 then "Zeynep: I\x27m out of ideas... Draw a card!"
     else "Zeynep: I\x27m stumped... Draw a card!", g')
  else (b1, "Zeynep: " ++ (prioritize_moves moves).headD "", g)

/-- The engine operations that act on a Board during play. -/
inductive EngineOp
  | draw
  | toFoundation (sel : Option Sel) (fIdx : Nat)
  | toTableau (sel : Option Sel) (tIdx : Nat)
  | hint (g : Rng)

def applyOp (b : Board) : EngineOp → Board
  | .draw => (drawStock b).2
  | .toFoundation sel fIdx => (try_move_to_foundation b sel fIdx).2
  | .toTableau sel tIdx => (try_move_to_tableau b sel tIdx).2
  | .hint g => (show_hint b g).1

/-! ### `src/broken.py`'s stock-exhaustion state machine -/

/-- The fragment of `broken.py`'s `VegasSolitaire` that claim C8 cites:
its stock, waste and the `stock_exhausted` terminal flag. -/
structure BrokenGame where
  stock : List Card
  waste : List Card
  stockExhausted : Bool
  deriving DecidableEq, Repr

/-- Source `broken.py` `deal_from_stock` (lines 359-369): drawing from an
*already empty* stock sets the terminal flag (and calls `end_game`);
otherwise the tail card moves face-up onto the waste. -/
def broken_deal_from_stock (s : BrokenGame) : BrokenGame :=
  match s.stock.getLast? with
  | none => { s with stockExhausted := true }
  | some c =>
      { s with
        stock := s.stock.dropLast,
        waste := s.waste ++ [{ c with faceUp := true }] }

/-! ### Exhaustive solvability verifier (src/main.py lines 1515-1711)

The verifier works on immutable snapshots: `(suit, rank, face_up)` tuples
inside nested tuples.  Its memo is a set of `hash(state)` values, shared
by mutation across the whole search; here the memo is the (threaded) list
of states themselves, i.e. the hash is taken to be injective. -/

/-- A `(card.suit, card.rank, face_up)` snapshot tuple. -/
abbrev SCard := Suit × Rank × Bool

/-- The `_create_game_state` snapshot tuple
`(tableau, foundation, stock, waste)`. -/
structure SState where
  tableau : List (List SCard)
  foundation : List (List SCard)
  stock : List SCard
  waste : List SCard
  deriving DecidableEq, Repr

/-- Source `VegasSolitaire._create_game_state` (lines 1515-1541): foundation and
waste cards are recorded face-up, stock cards face-down, tableau cards
with their actual flag. -/
def create_game_state (b : Board) : SState where
  tableau := b.tableau.map (fun pile =>
    pile.map (fun c => (c.suit, c.rank, c.faceUp)))
  foundation := b.foundation.map (fun pile =>
    pile.map (fun c => (c.suit, c.rank, true)))
  stock := b.stock.map (fun c => (c.suit, c.rank, false))
  waste := b.waste.map (fun c => (c.suit, c.rank, true))

/-- The move tuples produced by `_get_state_moves`. -/
inductive SMove
  | wasteToFoundation (dest : Nat)
  | wasteToTableau (dest : Nat)
  | tableauToFoundation (srcPile srcIdx dest : Nat)
  | tableauToTableau (srcPile srcIdx dest : Nat)
  | stockToWaste
  deriving DecidableEq, Repr

/-- Source `VegasSolitaire._get_state_moves` (lines 1641-1711), in generation
order: waste moves, the single stock draw, then tableau moves. -/
def get_state_moves (s : SState) : List SMove :=
  let wasteMoves :=
    match s.waste.getLast? with
    | none => []
    | some (ws, wr, _) =>
        ((List.range s.foundation.length).filter (fun i =>
          match (s.foundation.getD i []).getLast? with
          | none => wr == Rank.ace
          | some (fs, fr, _) =>
              ws == fs && (wr.number == fr.number + 1))).map .wasteToFoundation
        ++ ((List.range s.tableau.length).filter (fun i =>
          match (s.tableau.getD i []).getLast? with
          | none => wr == Rank.king
          | some (ts, tr, tf) =>
              tf && (ws.color != ts.color) &&
                (wr.number == tr.number - 1))).map .wasteToTableau
  let stockMoves := if s.stock.isEmpty then [] else [SMove.stockToWaste]
  let tabMoves := (List.range s.tableau.length).flatMap (fun i =>
    let pile := s.tableau.getD i []
    (List.range pile.length).flatMap (fun j =>
      match pile.get? j with
      | none => []
      | some (cs, cr, cf) =>
          if !cf then []
          else
            ((List.range s.foundation.length).filter (fun k =>
              match (s.foundation.getD k []).getLast? with
              | none => cr == Rank.ace
              | some (fs, fr, _) =>
                  cs == fs && (cr.number == fr.number + 1))).map
              (.tableauToFoundation i j)
            ++ ((List.range s.tableau.length).filter (fun k =>
              k != i &&
                match (s.tableau.getD k []).getLast? with
                | none => cr == Rank.king
                | some (ts, tr, tf) =>
                    tf && (cs.color != ts.color) &&
                      (cr.number == tr.number - 1))).map
              (.tableauToTableau i j)))
  wasteMoves ++ stockMoves ++ tabMoves

/-- Source `VegasSolitaire._apply_move_to_state` (lines 1585-1639).  A Python
exception (popping an empty waste, indexing out of range) is caught and
returns the original state.  Note the two quirks the claims probe: the
stock-to-waste branch pops `stock_state.pop(0)` — the *head* — and does
not set the face-up flag of the moved tuple. -/
def apply_move_to_state (s : SState) (m : SMove) : SState :=
  match m with
  | .wasteToFoundation d =>
      match s.waste.getLast? with
      | none => s
      | some card =>
          { s with
            waste := s.waste.dropLast,
            foundation := s.foundation.set d
              ((s.foundation.getD d []) ++ [card]) }
  | .wasteToTableau d =>
      match s.waste.getLast? with
      | none => s
      | some card =>
          { s with
            waste := s.waste.dropLast,
            tableau := s.tableau.set d ((s.tableau.getD d []) ++ [card]) }
  | .tableauToFoundation i j d =>
      match (s.tableau.getD i []).get? j with
      | none => s
      | some card =>
          { s with
            tableau := s.tableau.set i ((s.tableau.getD i []).take j),
            foundation := s.foundation.set d
              ((s.foundation.getD d []) ++ [card]) }
  | .tableauToTableau i j d =>
      let cards := (s.tableau.getD i []).drop j
      let tab1 := s.tableau.set i ((s.tableau.getD i []).take j)
      { s with tableau := tab1.set d ((tab1.getD d []) ++ cards) }
  | .stockToWaste =>
      match s.stock with
      | [] => s
      | c :: rest => { s with stock := rest, waste := s.waste ++ [c] }

/-- Win test of `_can_solve_state`:
`all(len(pile) == 13 for pile in foundation_state)`. -/
def isWinState (s : SState) : Bool :=
  s.foundation.all (fun p => p.length == 13)

/-- The `for move in possible_moves` loop of `_can_solve_state`: recurse
into every state-changing move, threading the (mutated-in-place) memo,
and stop at the first success. -/
def tryStateMoves (solve : SState → List SState → Bool × List SState) :
    List SMove → SState → List SState → Bool × List SState
  | [], _, memo => (false, memo)
  | m :: rest, s, memo =>
      let ns := apply_move_to_state s m
      if ns != s then
        match solve ns memo with
        | (true, memo') => (true, memo')
        | (false, memo') => tryStateMoves solve rest s memo'
      else tryStateMoves solve rest s memo

/-- Source `VegasSolitaire._can_solve_state` (lines 1543-1583): a *boolean*
depth-first search.  `max_depth <= 0` returns False; a memoized state
returns False (checked *before* the win test); the win test fires after
the state is added to the memo; otherwise every move is tried.  The
callbacks are presentation-only and omitted. -/
def can_solve_state : Nat → SState → List SState → Bool × List SState
  | 0, _, memo => (false, memo)
  | Nat.succ d, s, memo =>
      if memo.contains s then (false, memo)
      else
        if isWinState s then (true, s :: memo)
        else tryStateMoves (can_solve_state d) (get_state_moves s) s (s :: memo)

/-! ### Heuristic access-order oracle (src/main.py lines 1347-1512,
`_is_game_solvable`) -/

inductive Loc
  | inStock | inWaste | inTableau | inFoundation
  deriving DecidableEq, Repr

/-- One entry of the `card_info` dict built by `get_all_cards`. -/
structure CInfo where
  loc : Loc
  pileIdx : Nat
  pos : Nat
  faceUp : Bool
  cardsAbove : List Card
  accessOrder : Option Int
  deriving DecidableEq, Repr

/-- Source `card_info` as an association list in dict-assignment order (stock,
then waste top-first, then tableau, then foundation).  Later assignments
overwrite earlier ones, so lookups search from the end; on any
well-formed board the keys are distinct and this is exactly the dict. -/
def get_all_cards (b : Board) : List ((Suit × Rank) × CInfo) :=
  b.stock.enum.map (fun e =>
    ((e.2.suit, e.2.rank),
     ⟨.inStock, 0, e.1, false, [], some (Int.ofNat e.1)⟩))
  ++ b.waste.reverse.enum.map (fun e =>
    ((e.2.suit, e.2.rank),
     ⟨.inWaste, 0, e.1, true, [], some (Int.ofNat (b.stock.length + e.1))⟩))
  ++ b.tableau.enum.flatMap (fun pe =>
    pe.2.enum.map (fun e =>
      ((e.2.suit, e.2.rank),
       ⟨.inTableau, pe.1, e.1, e.2.faceUp, pe.2.drop (e.1 + 1), none⟩)))
  ++ b.foundation.enum.flatMap (fun pe =>
    pe.2.enum.map (fun e =>
      ((e.2.suit, e.2.rank), ⟨.inFoundation, pe.1, e.1, true, [], some (-1)⟩)))

/-- Dict lookup: the last assignment wins. -/
def lookupInfo (infos : List ((Suit × Rank) × CInfo)) (key : Suit × Rank) :
    Option CInfo :=
  (infos.reverse.find? (fun e => e.1 == key)).map (fun e => e.2)

/-- Source `is_card_accessible` (lines 1425-1451).  Foundation cards are *not*
accessible; stock/waste cards must have `access_order ≤ target`; a
face-down tableau card needs every card above it recursively accessible,
while a face-up tableau card is always accessible.  The Python recursion
is unbounded; the fuel (52 at every call site) bounds it and is never
exhausted on a well-formed board, whose `cards_above` chains strictly
shorten. -/
def is_card_accessible (infos : List ((Suit × Rank) × CInfo)) :
    Nat → (Suit × Rank) → Int → Bool
  | 0, _, _ => false
  | Nat.succ fuel, key, target =>
      match lookupInfo infos key with
      | none => false
      | some info =>
          match info.loc with
          | .inFoundation => false
          | .inStock | .inWaste =>
              match info.accessOrder with
              | some a => !(decide (a > target))
              | none => true
          | .inTableau =>
              if !info.faceUp then
                info.cardsAbove.all (fun ca =>
                  is_card_accessible infos fuel (ca.suit, ca.rank) target)
              else true

/-- Source `check_suit_buildable` (lines 1453-1494): collect the suit's 13
entries, sort by rank, and demand each one accessible by the time its
predecessors are done (the running `current_target_order`). -/
def check_suit_buildable (infos : List ((Suit × Rank) × CInfo)) (suit : Suit) :
    Bool :=
  let suitCards := (infos.filter (fun e => e.1.1 == suit)).map
    (fun e => (e.1.2, e.2))
  let sorted := stableSortBy
    (fun a b => a.1.number < b.1.number) suitCards
  if sorted.length != 13 then false
  else sorted.enum.all (fun e =>
    is_card_accessible infos 52 (suit, e.2.1) (Int.ofNat e.1))

/-- Source `VegasSolitaire._is_game_solvable` (lines 1347-1512): every suit must
be buildable. -/
def is_game_solvable (b : Board) : Bool :=
  suitOrder.all (fun s => check_suit_buildable (get_all_cards b) s)

/-! ### Spec-side legality predicates (claim C4)

These two predicates are transcribed from the *specification's words*
(§4.3), to be compared with the source-derived `can_move_to_foundation` /
`can_move_to_tableau`. -/

/-- Spec phrase "has no cards currently stacked above it in its source pile": a waste
selection is always the top card; a tableau selection at index `i` must be
the pile's last card. -/
def noCardsAboveInSource (b : Board) : Sel → Prop
  | .fromWaste => True
  | .fromTableau p i => i + 1 = (b.tableau.getD p []).length

/-- Spec §4.3, "To foundation": face-up, nothing stacked above it, and
either the foundation is empty and the card an Ace, or the foundation's
top has the same suit and one lower rank number. -/
def foundationLegalSpec (b : Board) (sel : Sel) (c : Card) (fIdx : Nat) :
    Prop :=
  c.faceUp = true ∧ noCardsAboveInSource b sel ∧
  ((b.foundation.getD fIdx [] = [] ∧ c.rank = Rank.ace) ∨
   (∃ top, (b.foundation.getD fIdx []).getLast? = some top ∧
     c.suit = top.suit ∧ c.rank.number = top.rank.number + 1))

/-- Spec §4.3, "To tableau": face-up, and either the destination pile is
empty and the card a King, or its top card is face-up, of the opposite
color, and of rank number one greater. -/
def tableauLegalSpec (b : Board) (c : Card) (tIdx : Nat) : Prop :=
  c.faceUp = true ∧
  ((b.tableau.getD tIdx [] = [] ∧ c.rank = Rank.king) ∨
   (∃ top, (b.tableau.getD tIdx []).getLast? = some top ∧
     top.faceUp = true ∧ c.suit.color ≠ top.suit.color ∧
     c.rank.number = top.rank.number - 1))

/-- Identity key of a card, Python's `__hash__`/`__eq__` view. -/
def idKey (c : Card) : Suit × Rank := (c.suit, c.rank)

/-- Well-formedness used by C4: no two cards of the tableau and waste
share a (suit, rank) identity — true of every legal Board by the
conservation invariant. -/
def boardIdsNodup (b : Board) : Prop :=
  ((b.tableau.flatten ++ b.waste).map idKey).Nodup

/-- Shape of a freshly dealt tableau pile (claim C6): `n` cards, all
face-down except the last, which is face-up. -/
def pileShape (pile : List Card) (n : Nat) : Prop :=
  pile.length = n ∧ (∀ c ∈ pile.dropLast, c.faceUp = false) ∧
  (∃ top, pile.getLast? = some top ∧ top.faceUp = true)

/-! ### Concrete fixtures used by the claim theorems -/

/-- A complete Ace→King foundation pile of one suit. -/
def fullPile (s : Suit) : List Card :=
  rankOrder.map (fun r => { suit := s, rank := r, faceUp := true })

/-- The fully-won board: all 52 cards on the foundations. -/
def wonBoard : Board where
  tableau := [[], [], [], [], [], [], []]
  foundation := [fullPile .hearts, fullPile .diamonds,
                 fullPile .clubs, fullPile .spades]
  stock := []
  waste := []
  bank := 0

def wonState : SState := create_game_state wonBoard

/-- A deadlocked snapshot: a lone face-down tableau card, nothing else
reachable — the search space is exhausted immediately. -/
def deadState : SState where
  tableau := [[(Suit.spades, Rank.ace, false)], [], [], [], [], [], []]
  foundation := [[], [], [], []]
  stock := []
  waste := []

/-- Board with exactly one stock card left. -/
def oneCardBoard : Board where
  tableau := [[], [], [], [], [], [], []]
  foundation := [[], [], [], []]
  stock := [{ suit := .clubs, rank := .two }]
  waste := []
  bank := 0

/-- Source `broken.py` game with one stock card left. -/
def brokenOne : BrokenGame where
  stock := [{ suit := .clubs, rank := .two }]
  waste := []
  stockExhausted := false

/-- Source `broken.py` game whose stock is already empty. -/
def brokenEmpty : BrokenGame where
  stock := []
  waste := []
  stockExhausted := false

/-- Board with two stock cards, used to compare the verifier's draw with
the live engine's draw. -/
def twoCardBoard : Board where
  tableau := [[], [], [], [], [], [], []]
  foundation := [[], [], [], []]
  stock := [{ suit := .spades, rank := .ace },
            { suit := .hearts, rank := .king }]
  waste := []
  bank := 0

/-- Hint fixture: no foundation move exists; the waste's 8♥ and tableau
2's 8♦ both fit on tableau 1's 9♠, and only the 8♦ move would reveal the
face-down 5♣ beneath it. -/
def hintBoard : Board where
  tableau := [[{ suit := .spades, rank := .nine, faceUp := true }],
              [{ suit := .clubs, rank := .five, faceUp := false },
               { suit := .diamonds, rank := .eight, faceUp := true }],
              [], [], [], [], []]
  foundation := [[], [], [], []]
  stock := [{ suit := .clubs, rank := .two }]
  waste := [{ suit := .hearts, rank := .eight, faceUp := true }]
  bank := 0

/-! ### Helper lemmas -/

theorem perm_swap_middle {α : Type} (a b : α) (M R : List α) :
    (b :: (M ++ a :: R)).Perm (a :: (M ++ b :: R)) := by
  have h1 : (M ++ a :: R).Perm (a :: (M ++ R)) := List.perm_middle
  have h2 : (b :: (M ++ R)).Perm (M ++ b :: R) := List.perm_middle.symm
  exact ((List.Perm.cons b h1).trans (List.Perm.swap a b (M ++ R))).trans
    (List.Perm.cons a h2)

theorem pySwap_perm {α : Type} (l : List α) (j i : Nat) :
    (pySwap l j i).Perm l := by
  unfold pySwap
  by_cases h : j < i ∧ i < l.length
  · rw [dif_pos h]
    have hj : j < l.length := Nat.lt_trans h.1 h.2
    have hgj : l.get? j = some (l.get ⟨j, hj⟩) := List.get?_eq_get hj
    have hgi : l.get? i = some (l.get ⟨i, h.2⟩) := List.get?_eq_get h.2
    rw [hgj, hgi]
    set a := l.get ⟨j, hj⟩ with ha
    set b := l.get ⟨i, h.2⟩ with hb
    -- decompose l as take j ++ a :: (middle ++ b :: rest)
    have hdecomp : l = l.take j ++ a :: ((l.drop (j+1)).take (i - j - 1) ++
        b :: l.drop (i+1)) := by
      have h1 : l = l.take j ++ l.drop j := (List.take_append_drop j l).symm
      have h2 : l.drop j = a :: l.drop (j+1) := by
        rw [ha]
        rw [List.drop_eq_get_cons hj]
      have h3 : l.drop (j+1) = (l.drop (j+1)).take (i - j - 1) ++
          (l.drop (j+1)).drop (i - j - 1) := (List.take_append_drop _ _).symm
      have h4 : (l.drop (j+1)).drop (i - j - 1) = l.drop i := by
        rw [List.drop_drop]
        have hidx : j + 1 + (i - j - 1) = i := by omega
        rw [hidx]
      have h5 : l.drop i = b :: l.drop (i+1) := by
        rw [hb]
        rw [List.drop_eq_get_cons h.2]
      calc l = l.take j ++ l.drop j := h1
        _ = l.take j ++ a :: l.drop (j+1) := by rw [h2]
        _ = l.take j ++ a :: ((l.drop (j+1)).take (i - j - 1) ++
              (l.drop (j+1)).drop (i - j - 1)) := by rw [← h3]
        _ = l.take j ++ a :: ((l.drop (j+1)).take (i - j - 1) ++
              b :: l.drop (i+1)) := by rw [h4, h5]
    conv_rhs => rw [hdecomp]
    exact List.Perm.append_left _ (perm_swap_middle a b _ _)
  · rw [dif_neg h]

theorem pyShuffleAux_perm {α : Type} (n : Nat) (l : List α) (g : Rng) :
    (pyShuffleAux n l g).1.Perm l := by
  induction n generalizing l g with
  | zero => exact List.Perm.refl l
  | succ i ih =>
      simp only [pyShuffleAux]
      exact (ih _ _).trans (pySwap_perm l _ _)

theorem pyShuffle_perm {α : Type} (l : List α) (g : Rng) :
    (pyShuffle l g).1.Perm l :=
  pyShuffleAux_perm _ l g

theorem length_insertBy {α : Type} (lt : α → α → Bool) (a : α) (l : List α) :
    (insertBy lt a l).length = l.length + 1 := by
  induction l with
  | nil => rfl
  | cons b rest ih =>
      simp only [insertBy]
      by_cases h : lt b a
      · simp [h, ih]
      · simp [h]

theorem length_stableSortBy {α : Type} (lt : α → α → Bool) (l : List α) :
    (stableSortBy lt l).length = l.length := by
  induction l with
  | nil => rfl
  | cons a rest ih =>
      simp only [stableSortBy]
      rw [length_insertBy, ih, List.length_cons]

theorem sumLen_filter_nonempty {α : Type} (l : List (List α)) :
    sumLen (l.filter (fun p => !p.isEmpty)) = sumLen l := by
  induction l with
  | nil => rfl
  | cons x rest ih =>
      by_cases h : x.isEmpty
      · have hx : x = [] := List.isEmpty_iff.mp h
        simp [sumLen, List.filter, hx] at ih ⊢
        exact ih
      · simp [sumLen, List.filter, h] at ih ⊢
        omega

theorem replaceFirst_sumLen_le {α : Type} [DecidableEq α]
    (l : List (List α)) (a b : List α) (h : b.length ≤ a.length) :
    sumLen (replaceFirst l a b) ≤ sumLen l := by
  induction l with
  | nil => simp [replaceFirst]
  | cons x rest ih =>
      by_cases hx : x = a
      · simp [replaceFirst, hx, sumLen]
        omega
      · simp [replaceFirst, hx, sumLen] at ih ⊢
        omega

theorem replaceFirst_sumLen_mem {α : Type} [DecidableEq α]
    (l : List (List α)) (a b : List α) (h : a ∈ l) :
    sumLen (replaceFirst l a b) + a.length = sumLen l + b.length := by
  induction l with
  | nil => cases h
  | cons x rest ih =>
      by_cases hx : x = a
      · simp [replaceFirst, hx, sumLen]
        omega
      · have hmem : a ∈ rest := by
          cases h with
          | head => exact absurd rfl hx
          | tail _ hm => exact hm
        simp [replaceFirst, hx, sumLen] at ih ⊢
        have := ih hmem
        omega

theorem pyChoiceIdx_lt {α : Type} (xs : List α) (g : Rng)
    (h : ¬xs.isEmpty) : (pyChoiceIdx xs g).1 < xs.length := by
  unfold pyChoiceIdx
  have : 0 < xs.length := by
    cases xs with
    | nil => exact absurd rfl h
    | cons a t => simp
  exact Nat.mod_lt _ this

theorem pyChoice_mem {α : Type} (xs : List α) (g : Rng) (a : α) (g' : Rng)
    (h : pyChoice xs g = (some a, g')) : a ∈ xs := by
  unfold pyChoice at h
  have h1 : xs.get? ((rngNext g).1 % xs.length) = some a :=
    congrArg Prod.fst h
  exact List.get?_mem h1

theorem interleaveStep2_not_done (phases : List (List Card))
    (acc : List Card) (c : Card) (selTail : List Card) (r : Nat) (g2 : Rng)
    (acc' : List Card) (g' : Rng) :
    interleaveStep2 phases acc c selTail r g2 ≠ .done acc' g' := by
  intro h
  rw [interleaveStep2] at h
  split at h
  · split at h
    · exact StepRes.noConfusion h
    · split at h
      · exact StepRes.noConfusion h
      · exact StepRes.noConfusion h
      · exact StepRes.noConfusion h
  · exact StepRes.noConfusion h

theorem interleaveStep2_cont (phases : List (List Card)) (acc : List Card)
    (c : Card) (selTail : List Card) (r : Nat) (g2 : Rng)
    (ph' : List (List Card)) (acc' : List Card) (g' : Rng)
    (hmem : (c :: selTail) ∈ phases)
    (h : interleaveStep2 phases acc c selTail r g2 = .cont ph' acc' g') :
    sumLen ph' < sumLen phases ∧
      acc'.length + sumLen ph' = acc.length + sumLen phases := by
  have hsum1 : sumLen (popSel phases c selTail) + 1 = sumLen phases := by
    unfold popSel
    rw [sumLen_filter_nonempty]
    have := replaceFirst_sumLen_mem phases (c :: selTail) selTail hmem
    simp only [List.length_cons] at this
    omega
  rw [interleaveStep2] at h
  split at h
  · split at h
    · cases h
      refine ⟨by omega, ?_⟩
      simp only [List.length_append, List.length_cons, List.length_nil]
      omega
    · split at h
      case _ g3 heq =>
        cases h
        refine ⟨by omega, ?_⟩
        simp only [List.length_append, List.length_cons, List.length_nil]
        omega
      case _ g3 heq =>
        cases h
        refine ⟨by omega, ?_⟩
        simp only [List.length_append, List.length_cons, List.length_nil]
        omega
      case _ c2 othTail g3 heq =>
        cases h
        have hothmem : (c2 :: othTail) ∈ popSel phases c selTail := by
          have := pyChoice_mem _ _ _ _ heq
          exact (List.mem_filter.mp this).1
        have := replaceFirst_sumLen_mem _ (c2 :: othTail) othTail hothmem
        simp only [List.length_cons] at this
        refine ⟨by omega, ?_⟩
        simp only [List.length_append, List.length_cons, List.length_nil]
        omega
  · cases h
    refine ⟨by omega, ?_⟩
    simp only [List.length_append, List.length_cons, List.length_nil]
    omega

theorem interleaveStep_cont_sumLen (phases : List (List Card))
    (acc : List Card) (g : Rng) (ph' : List (List Card)) (acc' : List Card)
    (g' : Rng) (h : interleaveStep phases acc g = .cont ph' acc' g') :
    sumLen ph' < sumLen phases ∧
      acc'.length + sumLen ph' = acc.length + sumLen phases := by
  rw [interleaveStep] at h
  split at h
  · exact StepRes.noConfusion h
  split at h
  · exact StepRes.noConfusion h
  rename_i h0 h1
  split at h
  · exact StepRes.noConfusion h
  case _ c selTail hsel =>
    have hklt := pyChoiceIdx_lt (phases.filter (fun p => !p.isEmpty)) g h1
    have hmem : (phases.filter (fun p => !p.isEmpty)).getD
        (pyChoiceIdx (phases.filter (fun p => !p.isEmpty)) g).1 [] ∈
        phases.filter (fun p => !p.isEmpty) := by
      rw [List.getD_eq_getElem _ _ hklt]
      exact List.getElem_mem _
    rw [hsel] at hmem
    exact interleaveStep2_cont _ _ _ _ _ _ _ _ _
      (List.mem_filter.mp hmem).1 h

/-- When the loop body stops, every phase is already empty and the
accumulator is unchanged. -/
theorem interleaveStep_done_sumLen (phases : List (List Card))
    (acc : List Card) (g : Rng) (acc' : List Card) (g' : Rng)
    (h : interleaveStep phases acc g = .done acc' g') :
    sumLen phases = 0 ∧ acc' = acc := by
  rw [interleaveStep] at h
  split at h
  case _ h0 =>
    cases h
    have : phases = [] := List.isEmpty_iff.mp h0
    subst this
    exact ⟨rfl, rfl⟩
  split at h
  case _ h0 h1 =>
    cases h
    refine ⟨?_, rfl⟩
    have hall : ∀ p ∈ phases, p = [] := by
      intro p hp
      by_contra hne
      have hmem : p ∈ phases.filter (fun p => !p.isEmpty) :=
        List.mem_filter.mpr ⟨hp, by simpa using hne⟩
      rw [List.isEmpty_iff.mp h1] at hmem
      cases hmem
    unfold sumLen
    have : phases.map List.length = phases.map (fun _ => 0) := by
      apply List.map_congr_left
      intro p hp
      rw [hall p hp]
      rfl
    rw [this]
    simp
  -- the remaining branches never return `done`
  rename_i h0 h1
  split at h
  case _ hsel =>
    have hklt := pyChoiceIdx_lt (phases.filter (fun p => !p.isEmpty)) g h1
    have hmem : (phases.filter (fun p => !p.isEmpty)).getD
        (pyChoiceIdx (phases.filter (fun p => !p.isEmpty)) g).1 [] ∈
        phases.filter (fun p => !p.isEmpty) := by
      rw [List.getD_eq_getElem _ _ hklt]
      exact List.getElem_mem _
    rw [hsel] at hmem
    have := (List.mem_filter.mp hmem).2
    simp at this
  case _ c selTail hsel =>
    exact absurd h (interleaveStep2_not_done _ _ _ _ _ _ _ _)

theorem interleave_length (fuel : Nat) (phases : List (List Card))
    (acc : List Card) (g : Rng) (hfuel : sumLen phases ≤ fuel) :
    (interleave fuel phases acc g).1.length = acc.length + sumLen phases := by
  induction fuel generalizing phases acc g with
  | zero =>
      have h0 : sumLen phases = 0 := Nat.le_zero.mp hfuel
      simp [interleave, h0]
  | succ fuel ih =>
      simp only [interleave]
      split
      case _ acc' g' h =>
        have hd := interleaveStep_done_sumLen _ _ _ _ _ h
        rw [hd.2, hd.1]
        rfl
      case _ ph' acc' g' h =>
        have hc := interleaveStep_cont_sumLen _ _ _ _ _ _ h
        have := ih ph' acc' g' (by omega)
        simp only [this]
        omega

theorem try_move_to_foundation_stock (b : Board) (sel : Option Sel)
    (fIdx : Nat) : (try_move_to_foundation b sel fIdx).2.stock = b.stock := by
  unfold try_move_to_foundation
  rcases sel with _ | s
  · rfl
  · cases s with
    | fromWaste =>
        cases b.waste.getLast? with
        | none => rfl
        | some card => dsimp only; split <;> rfl
    | fromTableau p i =>
        dsimp only
        cases (b.tableau.getD p []).get? i with
        | none => rfl
        | some card => dsimp only; split <;> rfl

theorem try_move_to_tableau_stock (b : Board) (sel : Option Sel)
    (tIdx : Nat) : (try_move_to_tableau b sel tIdx).2.stock = b.stock := by
  unfold try_move_to_tableau
  rcases sel with _ | s
  · rfl
  · cases s with
    | fromWaste =>
        cases b.waste.getLast? with
        | none => rfl
        | some card => dsimp only; split <;> rfl
    | fromTableau p i =>
        dsimp only
        cases (b.tableau.getD p []).get? i with
        | none => rfl
        | some card => dsimp only; split <;> rfl

theorem show_hint_stock (b : Board) (g : Rng) :
    (show_hint b g).1.stock = b.stock := by
  simp only [show_hint]
  split <;> rfl

/-! ### Claim C1 -/

/-- C1 (counterexample): `generate_solvable_game` takes only a difficulty
— no seed parameter exists — and reads the global `random` module.  Two
calls with the identical argument `EASY` under different ambient RNG
states yield different Boards, refuting "deal generation is a
deterministic function of (difficulty, seed), reading no randomness from
ambient/global state". -/
theorem C1_seedless_generation_differs :
    generate_solvable_game Difficulty.easy [0] ≠
      generate_solvable_game Difficulty.easy [1] := by
  intro h
  have h2 := congrArg (fun r => r.map (fun t => t.1.getD 1 [])) h
  simp only at h2
  exact absurd h2 (by decide)

/-- C1 (amended): deal generation is deterministic only given the pair
(difficulty, ambient RNG state): with the global RNG made explicit, equal
difficulties and equal RNG states yield bitwise-identical results.  (It
is *not* a function of the arguments alone, as the counterexample
shows.) -/
theorem C1_deterministic_given_rng_state (d : Difficulty) (g1 g2 : Rng)
    (h : g1 = g2) :
    generate_solvable_game d g1 = generate_solvable_game d g2 := by
  rw [h]

theorem C1_deterministic_given_rng_state_witness :
    generate_solvable_game Difficulty.easy [3, 1] =
      generate_solvable_game Difficulty.easy [3, 1] :=
  C1_deterministic_given_rng_state Difficulty.easy [3, 1] [3, 1] rfl

/-! ### Claim C2 -/

/-- C2 (counterexample): `_can_solve_state` returns a plain boolean, not
three distinct outcomes.  The fully-won snapshot is solvable (depth 1
already returns True), yet with the budget exhausted (depth 0) it gets
the very same `False` that the genuinely deadlocked `deadState` gets
after its whole reachable space is exhausted: budget exhaustion *is*
reported as unsolvable. -/
theorem C2_budget_exhaustion_conflated :
    (can_solve_state 0 wonState []).1 = false ∧
    (can_solve_state 1 wonState []).1 = true ∧
    (can_solve_state 50 deadState []).1 = false := by
  refine ⟨rfl, ?_, ?_⟩ <;> decide

/-- C2 (amended): the search has only two outcomes.  It returns `false`
with the memo untouched whenever the depth budget is exhausted —
regardless of the state's solvability — and `true` immediately on a
not-yet-memoized winning state; exhausting the budget and exhausting the
search space produce the identical `false`. -/
theorem C2_two_outcome_search (s : SState) (memo : List SState) (d : Nat) :
    can_solve_state 0 s memo = (false, memo) ∧
    (memo.contains s = false → isWinState s = true →
      can_solve_state (d + 1) s memo = (true, s :: memo)) := by
  refine ⟨rfl, ?_⟩
  intro h1 h2
  have h1' : (memo.contains s) = false := h1
  simp only [can_solve_state, h1', h2, Bool.false_eq_true, if_false, if_true]

theorem C2_two_outcome_search_witness :
    can_solve_state 0 wonState [] = (false, []) ∧
    can_solve_state 1 wonState [] = (true, [wonState]) :=
  ⟨(C2_two_outcome_search wonState [] 0).1,
   (C2_two_outcome_search wonState [] 0).2 (by decide) (by decide)⟩

/-! ### Claim C7 -/

/-- C7 (code bug): on the board with all 52 cards already in foundations,
the exhaustive mode does return Solvable with zero additional moves
explored (the memo holds only the initial state), but the heuristic mode
returns *False* — `is_card_accessible` rejects every card whose location
is `foundation`, so `check_suit_buildable` fails on every suit of a
finished game. -/
theorem C7_won_board_oracle_modes :
    is_game_solvable wonBoard = false ∧
    can_solve_state 1 wonState [] = (true, [wonState]) := by
  constructor <;> decide

/-! ### Claim C8 -/

/-- C8 (counterexample): drawing the last stock card empties the stock,
yet no terminal transition happens — `main.py`'s `_check_game_over` still
returns False on the resulting board, and `broken.py`'s
`stock_exhausted` flag is still unset after the draw that emptied the
stock. -/
theorem C8_empty_stock_not_terminal :
    (drawStock oneCardBoard).2.stock = [] ∧
    check_game_over (drawStock oneCardBoard).2 = false ∧
    (broken_deal_from_stock brokenOne).stock = [] ∧
    (broken_deal_from_stock brokenOne).stockExhausted = false := by
  refine ⟨?_, rfl, ?_, rfl⟩ <;> decide

/-- C8 (amended): the stock becoming empty does not by itself end the
game.  `main.py`'s `_check_game_over` returns False on every board (the
game loop never leaves Playing through it), while `broken.py` sets its
terminal flag exactly when a draw is *attempted on an already-empty*
stock, and a successful draw never changes the flag. -/
theorem C8_game_over_semantics (b : Board) (s : BrokenGame) (c : Card) :
    check_game_over b = false ∧
    (s.stock = [] → (broken_deal_from_stock s).stockExhausted = true) ∧
    (s.stock.getLast? = some c →
      (broken_deal_from_stock s).stockExhausted = s.stockExhausted) := by
  refine ⟨rfl, ?_, ?_⟩
  · intro h
    simp [broken_deal_from_stock, h]
  · intro h
    simp [broken_deal_from_stock, h]

theorem C8_game_over_semantics_witness :
    check_game_over oneCardBoard = false ∧
    (broken_deal_from_stock brokenEmpty).stockExhausted = true ∧
    (broken_deal_from_stock brokenOne).stockExhausted =
      brokenOne.stockExhausted :=
  ⟨(C8_game_over_semantics oneCardBoard brokenEmpty
      { suit := .clubs, rank := .two }).1,
   (C8_game_over_semantics oneCardBoard brokenEmpty
      { suit := .clubs, rank := .two }).2.1 rfl,
   (C8_game_over_semantics oneCardBoard brokenOne
      { suit := .clubs, rank := .two }).2.2 rfl⟩

/-! ### Claim C9 -/

/-- C9 (code bug): on a board whose stock snapshot is
`[A♠ (head), K♥ (tail)]`, the verifier's stock-to-waste move pops the
*head* (`stock_state.pop(0)`) and appends it to the waste still
face-down, while the live engine's draw (`self.stock.pop()`) moves the
*tail* card face-up.  The two successor snapshots differ. -/
theorem C9_verifier_draws_wrong_end :
    apply_move_to_state (create_game_state twoCardBoard) .stockToWaste ≠
      create_game_state (drawStock twoCardBoard).2 ∧
    (apply_move_to_state (create_game_state twoCardBoard)
        .stockToWaste).waste = [(Suit.spades, Rank.ace, false)] ∧
    (create_game_state (drawStock twoCardBoard).2).waste =
      [(Suit.hearts, Rank.king, true)] := by
  refine ⟨?_, ?_, ?_⟩ <;> decide

/-! ### Claim C10 -/

/-- C10 (code bug): the hint does debit the fixed $7 fee, but the
documented priority tiers 2 and 3 can never fire — move strings render
cards as `[8♦]`, never containing the substrings "reveal", "King" or
"empty" that `_prioritize_moves` greps for.  On `hintBoard` the only
foundation-free moves are the waste 8♥ and the tableau 8♦ onto tableau
1; moving the 8♦ would reveal the face-down 5♣ (priority tier 2), yet
the hint returns the non-revealing waste move, which merely comes first
in generation order. -/
theorem C10_hint_priority_tiers_dead :
    (show_hint hintBoard []).1.bank = hintBoard.bank - 7 ∧
    "Tableau 2 [8♦] → Tableau 1" ∈ get_possible_moves hintBoard ∧
    ((try_move_to_tableau hintBoard (some (.fromTableau 1 1)) 0).2.tableau.getD
        1 []) = [{ suit := .clubs, rank := .five, faceUp := true }] ∧
    (show_hint hintBoard []).2.1 = "Zeynep: Waste [8♥] → Tableau 1" := by
  refine ⟨?_, ?_, ?_, ?_⟩ <;> decide

/-! ### Claim C3 -/

/-- C3 (confirmed): if the legality predicate rejects the selected card
(for a foundation or a tableau destination), the try-move returns failure
with the Board — tableau, foundation, stock, waste, every orientation
flag and the bank — exactly as it was.  A selection that designates no
card (Python's `IndexError` path, caught by the input handler) also
leaves the Board unchanged. -/
theorem C3_rejected_move_is_noop (b : Board) (sel : Option Sel)
    (fIdx tIdx : Nat) :
    ((∀ c, selectedCard b sel = some c →
        can_move_to_foundation b c fIdx = false) →
      try_move_to_foundation b sel fIdx = (false, b)) ∧
    ((∀ c, selectedCard b sel = some c →
        can_move_to_tableau b c tIdx = false) →
      try_move_to_tableau b sel tIdx = (false, b)) := by
  constructor
  · intro h
    unfold try_move_to_foundation
    rcases sel with _ | s
    · rfl
    · cases s with
      | fromWaste =>
          dsimp only
          cases hw : b.waste.getLast? with
          | none => rfl
          | some card =>
              have hc := h card (by simp only [selectedCard]; exact hw)
              simp [hc]
      | fromTableau p i =>
          dsimp only
          cases hw : (b.tableau.getD p []).get? i with
          | none => rfl
          | some card =>
              have hc := h card (by simp only [selectedCard]; exact hw)
              simp [hc]
  · intro h
    unfold try_move_to_tableau
    rcases sel with _ | s
    · rfl
    · cases s with
      | fromWaste =>
          dsimp only
          cases hw : b.waste.getLast? with
          | none => rfl
          | some card =>
              have hc := h card (by simp only [selectedCard]; exact hw)
              simp [hc]
      | fromTableau p i =>
          dsimp only
          cases hw : (b.tableau.getD p []).get? i with
          | none => rfl
          | some card =>
              have hc := h card (by simp only [selectedCard]; exact hw)
              simp [hc]

theorem C3_rejected_move_is_noop_witness :
    try_move_to_foundation hintBoard (some .fromWaste) 0 =
      (false, hintBoard) ∧
    try_move_to_tableau hintBoard (some .fromWaste) 2 =
      (false, hintBoard) := by
  constructor
  · apply (C3_rejected_move_is_noop hintBoard (some .fromWaste) 0 2).1
    intro c hc
    have he : selectedCard hintBoard (some .fromWaste) =
        some { suit := Suit.hearts, rank := Rank.eight, faceUp := true } :=
      rfl
    rw [he] at hc
    have := Option.some.inj hc
    subst this
    decide
  · apply (C3_rejected_move_is_noop hintBoard (some .fromWaste) 0 2).2
    intro c hc
    have he : selectedCard hintBoard (some .fromWaste) =
        some { suit := Suit.hearts, rank := Rank.eight, faceUp := true } :=
      rfl
    rw [he] at hc
    have := Option.some.inj hc
    subst this
    decide

/-! ### Claim C5 -/

/-- C5 (confirmed): drawing from a non-empty stock moves exactly the
stock's tail card — the "next to draw" — to the top of the waste, turned
face-up, leaving everything else alone; and no engine operation ever
grows the stock (its result is either the same stock or the stock minus
its tail), so once the stock is empty every operation leaves it empty —
the one-pass rule. -/
theorem C5_one_pass_stock (b : Board) :
    (∀ c, b.stock.getLast? = some c →
      drawStock b = (true, { b with
        stock := b.stock.dropLast,
        waste := b.waste ++ [{ c with faceUp := true }] })) ∧
    (∀ op, (applyOp b op).stock = b.stock ∨
      (applyOp b op).stock = b.stock.dropLast) ∧
    (b.stock = [] → ∀ op, (applyOp b op).stock = []) := by
  have hops : ∀ op, (applyOp b op).stock = b.stock ∨
      (applyOp b op).stock = b.stock.dropLast := by
    intro op
    cases op with
    | draw =>
        unfold applyOp drawStock
        cases b.stock.getLast? with
        | none => exact Or.inl rfl
        | some c => exact Or.inr rfl
    | toFoundation sel fIdx =>
        exact Or.inl (try_move_to_foundation_stock b sel fIdx)
    | toTableau sel tIdx =>
        exact Or.inl (try_move_to_tableau_stock b sel tIdx)
    | hint g => exact Or.inl (show_hint_stock b g)
  refine ⟨?_, hops, ?_⟩
  · intro c h
    simp [drawStock, h]
  · intro hempty op
    rcases hops op with h | h <;> rw [h, hempty] <;> rfl

/-! ### Claim C4 -/

theorem sameId_iff (x c : Card) : x.sameId c = true ↔ idKey x = idKey c := by
  simp [Card.sameId, idKey, Prod.ext_iff]

theorem sameId_refl (c : Card) : c.sameId c = true := by
  simp [Card.sameId]

/-- On a pile with pairwise-distinct identities, `pile.index(card)` finds
exactly the position the card sits at. -/
theorem findIdx_sameId_of_nodup (pile : List Card) :
    ∀ (i : Nat) (c : Card), (pile.map idKey).Nodup →
    pile.get? i = some c →
    pile.findIdx (fun x => x.sameId c) = i := by
  induction pile with
  | nil =>
      intro i c _ h
      simp at h
  | cons x rest ih =>
      intro i c hnd hget
      rw [List.map_cons] at hnd
      have hnd' := List.nodup_cons.mp hnd
      cases i with
      | zero =>
          have hx : x = c := by simpa using hget
          subst hx
          simp [List.findIdx_cons, sameId_refl]
      | succ i =>
          have hget' : rest.get? i = some c := by simpa using hget
          have hcmem : c ∈ rest := List.get?_mem hget'
          have hx : x.sameId c = false := by
            cases hxy : x.sameId c with
            | false => rfl
            | true =>
                exfalso
                have hkey : idKey x = idKey c := (sameId_iff x c).mp hxy
                exact hnd'.1 (hkey ▸ List.mem_map_of_mem idKey hcmem)
          rw [List.findIdx_cons, hx]
          simp only [cond_false]
          rw [ih i c hnd'.2 hget']

/-- Distinct identities across the whole tableau: at most one member pile
contains a card with a given identity. -/
theorem uniquePile (key : Suit × Rank) :
    ∀ (tabs : List (List Card)), (tabs.flatten.map idKey).Nodup →
    ∀ {q q' : List Card}, q ∈ tabs → q' ∈ tabs →
    (∃ y ∈ q, idKey y = key) → (∃ y' ∈ q', idKey y' = key) → q = q' := by
  intro tabs
  induction tabs with
  | nil =>
      intro _ q q' hq
      cases hq
  | cons t ts ih =>
      intro hnd q q' hq hq' hy hy'
      have hnd2 : ((t.map idKey) ++ (ts.flatten.map idKey)).Nodup := by
        rw [List.flatten_cons, List.map_append] at hnd
        exact hnd
      have hnd3 := List.nodup_append.mp hnd2
      have hmemflat : ∀ {r : List Card}, r ∈ ts → (∃ y ∈ r, idKey y = key) →
          key ∈ ts.flatten.map idKey := by
        intro r hr hyy
        obtain ⟨y, hyr, hyk⟩ := hyy
        exact hyk ▸ List.mem_map_of_mem idKey
          (List.mem_flatten.mpr ⟨r, hr, hyr⟩)
      rcases List.mem_cons.mp hq with rfl | hqts
      · rcases List.mem_cons.mp hq' with rfl | hqts'
        · rfl
        · exfalso
          obtain ⟨y, hyq, hyk⟩ := hy
          exact hnd3.2.2 (hyk ▸ List.mem_map_of_mem idKey hyq)
            (hmemflat hqts' hy')
      · rcases List.mem_cons.mp hq' with rfl | hqts'
        · exfalso
          obtain ⟨y', hyq', hyk'⟩ := hy'
          exact hnd3.2.2 (hyk' ▸ List.mem_map_of_mem idKey hyq')
            (hmemflat hqts hy)
        · exact ih hnd3.2.1 hqts hqts' hy hy'

/-- A waste card's identity never occurs in the tableau, so the
buried-card scan of `_can_move_to_foundation` finds nothing. -/
theorem scan_eq_false_waste (b : Board) (c : Card) (hnd : boardIdsNodup b)
    (hc : c ∈ b.waste) :
    b.tableau.any (fun pile => pile.any (fun x => x.sameId c) &&
      decide (indexOfId c pile < pile.length - 1)) = false := by
  have hnd2 : ((b.tableau.flatten.map idKey) ++ (b.waste.map idKey)).Nodup := by
    have h0 : ((b.tableau.flatten ++ b.waste).map idKey).Nodup := hnd
    rwa [List.map_append] at h0
  rw [List.any_eq_false]
  intro pile hp
  suffices hs : pile.any (fun x => x.sameId c) = false by simp [hs]
  rw [List.any_eq_false]
  intro x hx hxs
  have hkey : idKey x = idKey c := (sameId_iff x c).mp hxs
  exact (List.nodup_append.mp hnd2).2.2
    (hkey ▸ List.mem_map_of_mem idKey (List.mem_flatten.mpr ⟨pile, hp, hx⟩))
    (List.mem_map_of_mem idKey hc)

/-- For a card sitting at position `i` of tableau pile `p`, the
buried-card scan is exactly the test "cards sit above it". -/
theorem scan_eq_tableau (b : Board) (c : Card) (p i : Nat)
    (hnd : boardIdsNodup b)
    (hget : (b.tableau.getD p []).get? i = some c) :
    (b.tableau.any (fun pile => pile.any (fun x => x.sameId c) &&
      decide (indexOfId c pile < pile.length - 1))) =
    decide (i < (b.tableau.getD p []).length - 1) := by
  have hnd2 : ((b.tableau.flatten.map idKey) ++ (b.waste.map idKey)).Nodup := by
    have h0 : ((b.tableau.flatten ++ b.waste).map idKey).Nodup := hnd
    rwa [List.map_append] at h0
  have hplt : p < b.tableau.length := by
    by_contra hge
    have hnil : b.tableau.getD p [] = [] := by
      rw [List.getD_eq_getElem?_getD, List.getElem?_eq_none (by omega)]
      rfl
    rw [hnil] at hget
    simp at hget
  have hpile_mem : (b.tableau.getD p []) ∈ b.tableau := by
    rw [List.getD_eq_getElem _ _ hplt]
    exact List.getElem_mem _
  have hcmem : c ∈ b.tableau.getD p [] := List.get?_mem hget
  have hfl_nodup : (b.tableau.flatten.map idKey).Nodup :=
    (List.nodup_append.mp hnd2).1
  have hpile_nodup : ((b.tableau.getD p []).map idKey).Nodup :=
    List.Nodup.sublist ((List.sublist_flatten_of_mem hpile_mem).map idKey)
      hfl_nodup
  have hidx : indexOfId c (b.tableau.getD p []) = i :=
    findIdx_sameId_of_nodup _ i c hpile_nodup hget
  cases hdec : decide (i < (b.tableau.getD p []).length - 1) with
  | true =>
      rw [List.any_eq_true]
      refine ⟨b.tableau.getD p [], hpile_mem, ?_⟩
      rw [Bool.and_eq_true]
      constructor
      · rw [List.any_eq_true]
        exact ⟨c, hcmem, sameId_refl c⟩
      · rw [hidx]
        exact hdec
  | false =>
      rw [List.any_eq_false]
      intro pile hp
      intro hcontra
      rw [Bool.and_eq_true] at hcontra
      obtain ⟨y, hy, hys⟩ := List.any_eq_true.mp hcontra.1
      have heqpile : pile = b.tableau.getD p [] :=
        uniquePile (idKey c) b.tableau hfl_nodup hp hpile_mem
          ⟨y, hy, (sameId_iff y c).mp hys⟩ ⟨c, hcmem, rfl⟩
      have hcontra2 := hcontra.2
      rw [heqpile] at hcontra2
      rw [hidx] at hcontra2
      rw [hcontra2] at hdec
      cases hdec

/-- The empty-Ace / same-suit-successor foundation rule, as a Bool/Prop
bridge over an arbitrary foundation pile. -/
theorem foundation_rule_iff (F : List Card) (c : Card) :
    (match F.getLast? with
     | none => c.rank == Rank.ace
     | some top => c.suit == top.suit &&
         (c.rank.number == top.rank.number + 1)) = true ↔
    ((F = [] ∧ c.rank = Rank.ace) ∨
     (∃ top, F.getLast? = some top ∧ c.suit = top.suit ∧
       c.rank.number = top.rank.number + 1)) := by
  cases hl : F.getLast? with
  | none =>
      have hnil : F = [] := List.getLast?_eq_none.mp hl
      subst hnil
      simp
  | some top =>
      have hne : F ≠ [] := by
        intro hh
        rw [hh] at hl
        cases hl
      simp [hl, hne]

/-- The empty-King / opposite-color-predecessor tableau rule. -/
theorem tableau_rule_iff (T : List Card) (c : Card) :
    (match T.getLast? with
     | none => c.rank == Rank.king
     | some top => top.faceUp && (c.suit.color != top.suit.color) &&
         (c.rank.number == top.rank.number - 1)) = true ↔
    ((T = [] ∧ c.rank = Rank.king) ∨
     (∃ top, T.getLast? = some top ∧ top.faceUp = true ∧
       c.suit.color ≠ top.suit.color ∧
       c.rank.number = top.rank.number - 1)) := by
  cases hl : T.getLast? with
  | none =>
      have hnil : T = [] := List.getLast?_eq_none.mp hl
      subst hnil
      simp
  | some top =>
      have hne : T ≠ [] := by
        intro hh
        rw [hh] at hl
        cases hl
      simp [hl, hne, and_assoc]

/-- C4 (confirmed): on a Board whose tableau and waste cards carry
pairwise-distinct identities (the conservation invariant), the engine's
legality predicates coincide exactly with the specification's acceptance
conditions: to a foundation iff the selected card is face-up, has nothing
stacked above it in its source pile, and satisfies the empty-Ace or
same-suit-successor rule; to a tableau pile iff it is face-up and
satisfies the empty-King or face-up-opposite-color-predecessor rule. -/
theorem C4_legality_matches_spec (b : Board) (sel : Sel) (c : Card)
    (fIdx tIdx : Nat) (hnd : boardIdsNodup b)
    (hsel : selectedCard b (some sel) = some c) :
    (can_move_to_foundation b c fIdx = true ↔
      foundationLegalSpec b sel c fIdx) ∧
    (can_move_to_tableau b c tIdx = true ↔ tableauLegalSpec b c tIdx) := by
  constructor
  · unfold can_move_to_foundation foundationLegalSpec
    cases hface : c.faceUp with
    | false => simp [hface]
    | true =>
        simp only [hface, Bool.not_true, Bool.false_eq_true, if_false]
        cases sel with
        | fromWaste =>
            have hcw : c ∈ b.waste := List.mem_of_mem_getLast?
              (by simpa [selectedCard] using hsel)
            rw [scan_eq_false_waste b c hnd hcw]
            simp only [Bool.false_eq_true, if_false]
            rw [foundation_rule_iff]
            simp [noCardsAboveInSource]
        | fromTableau p i =>
            have hget : (b.tableau.getD p []).get? i = some c := by
              simpa [selectedCard] using hsel
            have hil : i < (b.tableau.getD p []).length := by
              by_contra hge
              rw [List.get?_eq_none.mpr (by omega)] at hget
              cases hget
            rw [scan_eq_tableau b c p i hnd hget]
            by_cases hlt : i < (b.tableau.getD p []).length - 1
            · have hcond : decide
                  (i < (b.tableau.getD p []).length - 1) = true := by
                simpa using hlt
              rw [hcond]
              simp only [if_true]
              constructor
              · intro h
                cases h
              · rintro ⟨-, hnca, -⟩
                simp only [noCardsAboveInSource] at hnca
                omega
            · have hcond : decide
                  (i < (b.tableau.getD p []).length - 1) = false := by
                simpa using hlt
              rw [hcond]
              simp only [Bool.false_eq_true, if_false]
              rw [foundation_rule_iff]
              have hnca : noCardsAboveInSource b (Sel.fromTableau p i) := by
                simp only [noCardsAboveInSource]
                omega
              simp [hnca]
  · unfold can_move_to_tableau tableauLegalSpec
    cases hface : c.faceUp with
    | false => simp [hface]
    | true =>
        simp only [hface, Bool.not_true, Bool.false_eq_true, if_false]
        rw [tableau_rule_iff]
        simp

theorem C4_legality_matches_spec_witness :
    (can_move_to_foundation hintBoard
        { suit := Suit.diamonds, rank := Rank.eight, faceUp := true } 0 =
          true ↔
      foundationLegalSpec hintBoard (Sel.fromTableau 1 1)
        { suit := Suit.diamonds, rank := Rank.eight, faceUp := true } 0) ∧
    (can_move_to_tableau hintBoard
        { suit := Suit.diamonds, rank := Rank.eight, faceUp := true } 0 =
          true ↔
      tableauLegalSpec hintBoard
        { suit := Suit.diamonds, rank := Rank.eight, faceUp := true } 0) :=
  C4_legality_matches_spec hintBoard (Sel.fromTableau 1 1)
    { suit := Suit.diamonds, rank := Rank.eight, faceUp := true } 0 0
    (by unfold boardIdsNodup; decide) rfl

theorem C5_one_pass_stock_witness :
    drawStock oneCardBoard = (true, { oneCardBoard with
      stock := oneCardBoard.stock.dropLast,
      waste := oneCardBoard.waste ++
        [{ suit := Suit.clubs, rank := Rank.two, faceUp := true }] }) ∧
    (applyOp wonBoard EngineOp.draw).stock = [] := by
  constructor
  · exact (C5_one_pass_stock oneCardBoard).1
      { suit := Suit.clubs, rank := Rank.two } rfl
  · exact (C5_one_pass_stock wonBoard).2.2 rfl EngineOp.draw

/-! ### Claim C6: supporting lemmas -/

theorem orientPile_length (l : List Card) :
    (orientPile l).length = l.length := by
  induction l with
  | nil => rfl
  | cons c rest ih =>
      cases rest with
      | nil => rfl
      | cons c' rest' =>
          simp only [orientPile, List.length_cons] at ih ⊢
          omega

theorem orientPile_dropLast_facedown (l : List Card) :
    ∀ c ∈ (orientPile l).dropLast, c.faceUp = false := by
  induction l with
  | nil => intro c hc; cases hc
  | cons c0 rest ih =>
      cases rest with
      | nil => intro c hc; cases hc
      | cons c' rest' =>
          intro c hc
          rw [orientPile] at hc
          have hne : orientPile (c' :: rest') ≠ [] := by
            intro hh
            have := orientPile_length (c' :: rest')
            rw [hh] at this
            simp at this
          cases hop : orientPile (c' :: rest') with
          | nil => exact absurd hop hne
          | cons y ys =>
              rw [hop, List.dropLast_cons₂] at hc
              rcases List.mem_cons.mp hc with rfl | hc2
              · rfl
              · exact ih c (by rw [hop]; exact hc2)

theorem orientPile_getLast_faceup (l : List Card) (h : l ≠ []) :
    ∃ top, (orientPile l).getLast? = some top ∧ top.faceUp = true := by
  induction l with
  | nil => exact absurd rfl h
  | cons c0 rest ih =>
      cases rest with
      | nil => exact ⟨{ c0 with faceUp := true }, rfl, rfl⟩
      | cons c' rest' =>
          obtain ⟨top, htop, hface⟩ := ih (by simp)
          have hne : orientPile (c' :: rest') ≠ [] := by
            intro hh
            have := orientPile_length (c' :: rest')
            rw [hh] at this
            simp at this
          cases hop : orientPile (c' :: rest') with
          | nil => exact absurd hop hne
          | cons y ys =>
              refine ⟨top, ?_, hface⟩
              rw [orientPile, hop, List.getLast?_cons_cons]
              rw [hop] at htop
              exact htop

theorem orientPile_shape (l : List Card) (n : Nat) (hlen : l.length = n)
    (hne : l ≠ []) : pileShape (orientPile l) n :=
  ⟨by rw [orientPile_length, hlen], orientPile_dropLast_facedown l,
   orientPile_getLast_faceup l hne⟩

theorem popSuit_size (o : Organized) (s : Suit) (c : Card) (o' : Organized)
    (h : popSuit o s = (some c, o')) : o'.size + 1 = o.size := by
  unfold popSuit at h
  cases hl : (o.get s).getLast? with
  | none =>
      rw [hl] at h
      simp at h
  | some c0 =>
      rw [hl] at h
      have h2 : o' = o.set s ((o.get s).dropLast) := by
        have := congrArg Prod.snd h
        exact this.symm
      subst h2
      have hne : o.get s ≠ [] := by
        intro hh
        rw [hh] at hl
        cases hl
      have hlen : 1 ≤ (o.get s).length := by
        cases hgs : o.get s with
        | nil => exact absurd hgs hne
        | cons a t => simp
      cases s <;>
        simp [Organized.size, Organized.set, Organized.get,
          List.length_dropLast] at hlen ⊢ <;>
        omega

theorem selectTableauCard_size (o : Organized) (d : Difficulty) (g : Rng)
    (c : Card) (o' : Organized) (g' : Rng)
    (h : selectTableauCard o d g = (some c, o', g')) :
    o'.size + 1 = o.size := by
  unfold selectTableauCard at h
  split at h
  case _ s heq =>
    split at h
    case _ c1 o1 hpop =>
      have hc1 : c1 = some c := congrArg (fun t => t.1) h
      have ho1 : o1 = o' := congrArg (fun t => t.2.1) h
      rw [hc1, ho1] at hpop
      exact popSuit_size o s c o' hpop
  case _ heq =>
    split at h
    · simp at h
    case _ s g1 hchoose =>
      split at h
      case _ c1 o1 hpop =>
        have hc1 : c1 = some c := congrArg (fun t => t.1) h
        have ho1 : o1 = o' := congrArg (fun t => t.2.1) h
        rw [hc1, ho1] at hpop
        exact popSuit_size o s c o' hpop

theorem selectCompatibleCard_size (o : Organized) (t : Card)
    (d : Difficulty) (g : Rng) (c : Card) (o' : Organized) (g' : Rng)
    (h : selectCompatibleCard o t d g = (some c, o', g')) :
    o'.size + 1 = o.size := by
  unfold selectCompatibleCard at h
  split at h
  · simp at h
  · split at h
    · simp at h
    case _ s g1 hchoice =>
      split at h
      case _ c1 o1 hpop =>
        have hc1 : c1 = some c := congrArg (fun t => t.1) h
        have ho1 : o1 = o' := congrArg (fun t => t.2.1) h
        rw [hc1, ho1] at hpop
        exact popSuit_size o s c o' hpop

theorem fillPile_spec (d : Difficulty) :
    ∀ (n : Nat) (lastCard : Card) (acc : List Card) (o : Organized)
      (g : Rng) (acc' : List Card) (o' : Organized) (g' : Rng),
    fillPile d n lastCard acc o g = some (acc', o', g') →
    acc'.length = acc.length + n ∧ o'.size + n = o.size := by
  intro n
  induction n with
  | zero =>
      intro lastCard acc o g acc' o' g' h
      have : acc = acc' ∧ o = o' := by
        simp [fillPile] at h
        exact ⟨h.1, h.2.1⟩
      rw [this.1, this.2] at *
      exact ⟨rfl, rfl⟩
  | succ n ih =>
      intro lastCard acc o g acc' o' g' h
      rw [fillPile] at h
      split at h
      · exact absurd h (by simp)
      case _ c o1 g1 hsel =>
        have hstep := selectCompatibleCard_size o lastCard d g c o1 g1 hsel
        have := ih lastCard (acc ++ [c]) o1 g1 acc' o' g' h
        constructor
        · rw [this.1]
          simp only [List.length_append, List.length_cons, List.length_nil]
          omega
        · omega

theorem buildPileCards_spec (d : Difficulty) (needed : Nat) (o : Organized)
    (g : Rng) (cards : List Card) (o' : Organized) (g' : Rng)
    (hn : 1 ≤ needed)
    (h : buildPileCards d needed o g = some (cards, o', g')) :
    cards.length = needed ∧ o'.size + needed = o.size := by
  unfold buildPileCards at h
  split at h
  · exact absurd h (by simp)
  case _ c o1 g1 hsel =>
    have hstep := selectTableauCard_size o d g c o1 g1 hsel
    have := fillPile_spec d (needed - 1) c [c] o1 g1 cards o' g' h
    constructor
    · rw [this.1]
      simp only [List.length_cons, List.length_nil]
      omega
    · omega

theorem buildPiles_spec (d : Difficulty) :
    ∀ (ns : List Nat) (o : Organized) (g : Rng)
      (piles : List (List Card)) (o' : Organized) (g' : Rng),
    (∀ n ∈ ns, 1 ≤ n) →
    buildPiles d ns o g = some (piles, o', g') →
    piles.length = ns.length ∧
    (∀ k n, ns.get? k = some n →
      ∃ pile, piles.get? k = some pile ∧ pileShape pile n) ∧
    o'.size + ns.sum = o.size := by
  intro ns
  induction ns with
  | nil =>
      intro o g piles o' g' _ h
      simp [buildPiles] at h
      obtain ⟨h1, h2, h3⟩ := h
      subst h1
      rw [h2]
      refine ⟨rfl, ?_, by simp⟩
      intro k n hk
      simp at hk
  | cons n rest ih =>
      intro o g piles o' g' hns h
      rw [buildPiles] at h
      split at h
      · exact absurd h (by simp)
      case _ cards o1 g1 hbp =>
        split at h
        · exact absurd h (by simp)
        case _ piles1 o2 g2 hrec =>
          have hn1 : 1 ≤ n := hns n (by simp)
          have hcards := buildPileCards_spec d n o g cards o1 g1 hn1 hbp
          have hrest := ih o1 g1 piles1 o2 g2
            (fun m hm => hns m (List.mem_cons_of_mem _ hm)) hrec
          have hpe : piles = orientPile cards :: piles1 ∧ o2 = o' ∧ g2 = g' := by
            have h4 := Option.some.inj h
            have h1 := congrArg (fun t => t.1) h4
            have h2 := congrArg (fun t => t.2.1) h4
            have h3 := congrArg (fun t => t.2.2) h4
            exact ⟨h1.symm, h2, h3⟩
          obtain ⟨hp1, hp2, -⟩ := hpe
          subst hp1
          rw [hp2] at hrest
          refine ⟨by simp [hrest.1], ?_, ?_⟩
          · intro k m hk
            cases k with
            | zero =>
                have hm : n = m := by simpa using hk
                subst hm
                refine ⟨orientPile cards, rfl, ?_⟩
                apply orientPile_shape cards n hcards.1
                intro hnil
                rw [hnil] at hcards
                simp at hcards
                omega
            | succ k =>
                have hk' : rest.get? k = some m := by simpa using hk
                exact hrest.2.1 k m hk'
          · have := hrest.2.2
            rw [List.sum_cons]
            omega

theorem pyShuffle_length {α : Type} (l : List α) (g : Rng) :
    (pyShuffle l g).1.length = l.length :=
  (pyShuffle_perm l g).length_eq

theorem suitBucket_createDeck_length (s : Suit) :
    (suitBucket createDeck s).length = 13 := by
  cases s <;> (rw [suitBucket, length_stableSortBy]; rfl)

theorem organizeCards_suit_lengths (d : Difficulty) (g : Rng) :
    (organizeCards createDeck d g).1.hearts.length = 13 ∧
    (organizeCards createDeck d g).1.diamonds.length = 13 ∧
    (organizeCards createDeck d g).1.clubs.length = 13 ∧
    (organizeCards createDeck d g).1.spades.length = 13 := by
  cases d with
  | easy =>
      exact ⟨suitBucket_createDeck_length _, suitBucket_createDeck_length _,
        suitBucket_createDeck_length _, suitBucket_createDeck_length _⟩
  | medium =>
      exact ⟨suitBucket_createDeck_length _, suitBucket_createDeck_length _,
        suitBucket_createDeck_length _, suitBucket_createDeck_length _⟩
  | hard =>
      unfold organizeCards
      have p1 := pyShuffle_length (suitBucket createDeck Suit.hearts) g
      rcases h1 : pyShuffle (suitBucket createDeck Suit.hearts) g with ⟨lh, g1⟩
      rw [h1] at p1
      have p2 := pyShuffle_length (suitBucket createDeck Suit.diamonds) g1
      rcases h2 : pyShuffle (suitBucket createDeck Suit.diamonds) g1
        with ⟨ld, g2⟩
      rw [h2] at p2
      have p3 := pyShuffle_length (suitBucket createDeck Suit.clubs) g2
      rcases h3 : pyShuffle (suitBucket createDeck Suit.clubs) g2 with ⟨lc, g3⟩
      rw [h3] at p3
      have p4 := pyShuffle_length (suitBucket createDeck Suit.spades) g3
      rcases h4 : pyShuffle (suitBucket createDeck Suit.spades) g3 with ⟨ls, g4⟩
      rw [h4] at p4
      dsimp only
      rw [h2]
      dsimp only
      rw [h3]
      dsimp only
      rw [h4]
      exact ⟨p1.trans (suitBucket_createDeck_length _),
        p2.trans (suitBucket_createDeck_length _),
        p3.trans (suitBucket_createDeck_length _),
        p4.trans (suitBucket_createDeck_length _)⟩

theorem extractBases_spec (o : Organized) (r : Nat) (hr : r ≤ 13)
    (hh : o.hearts.length = 13) (hd : o.diamonds.length = 13)
    (hc : o.clubs.length = 13) (hs : o.spades.length = 13) :
    (extractBases o r).1.length = 4 * r ∧
    (extractBases o r).2.size + 4 * r = 52 := by
  unfold extractBases Organized.size
  simp only [List.length_append, List.length_take, List.length_drop,
    hh, hd, hc, hs]
  rw [Nat.min_eq_left hr]
  omega

theorem flattenSuits_length (o : Organized) :
    o.flattenSuits.length = o.size := by
  simp [Organized.flattenSuits, Organized.size]
  omega

theorem attachDraws_length (l : List Card) :
    ∀ g : Rng, (attachDraws l g).1.length = l.length := by
  induction l with
  | nil => intro g; rfl
  | cons c rest ih =>
      intro g
      unfold attachDraws
      rcases hg : rngNext g with ⟨n, g'⟩
      dsimp only
      have := ih g'
      rcases ha : attachDraws rest g' with ⟨r2, g''⟩
      rw [ha] at this
      dsimp only
      simpa using this

theorem chunksOf4_sumLen :
    ∀ (n : Nat) (l : List Card), l.length ≤ n →
    sumLen (chunksOf4 l) = l.length := by
  intro n
  induction n with
  | zero =>
      intro l h
      have : l = [] := List.length_eq_zero.mp (Nat.le_zero.mp h)
      subst this
      rw [chunksOf4]
      rfl
  | succ n ih =>
      intro l h
      cases l with
      | nil => rw [chunksOf4]; rfl
      | cons c rest =>
          rw [chunksOf4]
          have hrec := ih ((c :: rest).drop 4) (by simp at h ⊢; omega)
          simp only [sumLen, List.map_cons, List.sum_cons] at hrec ⊢
          rw [hrec]
          simp only [List.length_take, List.length_drop, List.length_cons]
          omega

theorem sumLen_perm {α : Type} (l1 l2 : List (List α)) (h : l1.Perm l2) :
    sumLen l1 = sumLen l2 :=
  (h.map List.length).sum_eq

theorem sumLen_append {α : Type} (l1 l2 : List (List α)) :
    sumLen (l1 ++ l2) = sumLen l1 + sumLen l2 := by
  simp [sumLen]

theorem phaseFold_conserve (l : List Card) :
    ∀ st : List (List Card) × List Card × Option Nat,
    sumLen (l.foldl phaseStep st).1 + (l.foldl phaseStep st).2.1.length =
    sumLen st.1 + st.2.1.length + l.length := by
  induction l with
  | nil => intro st; simp
  | cons c rest ih =>
      intro st
      rw [List.foldl_cons]
      rw [ih (phaseStep st c)]
      have hstep : sumLen (phaseStep st c).1 + (phaseStep st c).2.1.length =
          sumLen st.1 + st.2.1.length + 1 := by
        rcases st with ⟨phases, current, seqStart⟩
        cases seqStart with
        | none => simp [phaseStep]; omega
        | some s0 =>
            simp only [phaseStep]
            split
            · split
              · rename_i hcur
                have hc0 : current = [] := List.isEmpty_iff.mp hcur
                subst hc0
                simp [sumLen]
              · simp only [sumLen_append]
                simp only [sumLen, List.map_cons, List.map_nil,
                  List.sum_cons, List.sum_nil, List.length_cons,
                  List.length_nil]
                omega
            · simp only [List.length_append, List.length_cons,
                List.length_nil]
              omega
      simp only [List.length_cons]
      omega

theorem analyze_sumLen (l : List Card) :
    sumLen (analyzeSuitDependencies l) = l.length := by
  unfold analyzeSuitDependencies
  have hcons := phaseFold_conserve l ([], [], none)
  rcases hf : l.foldl phaseStep ([], [], none) with ⟨phases, rest2⟩
  rcases rest2 with ⟨current, seq⟩
  rw [hf] at hcons
  simp only [sumLen, List.map_nil, List.sum_nil, List.length_nil] at hcons
  by_cases hcur : current.isEmpty
  · have hc0 : current = [] := List.isEmpty_iff.mp hcur
    subst hc0
    simp only [List.isEmpty_nil, if_true]
    simp only [List.length_nil] at hcons
    simpa [sumLen] using hcons
  · simp only [hcur, Bool.false_eq_true, if_false]
    rw [sumLen_append]
    simp only [sumLen, List.map_cons, List.map_nil, List.sum_cons,
      List.sum_nil] at hcons ⊢
    omega

theorem filter_suits_partition (l : List Card) :
    (l.filter (fun c => c.suit == Suit.hearts)).length +
    (l.filter (fun c => c.suit == Suit.diamonds)).length +
    (l.filter (fun c => c.suit == Suit.clubs)).length +
    (l.filter (fun c => c.suit == Suit.spades)).length = l.length := by
  induction l with
  | nil => rfl
  | cons c rest ih =>
      cases hs : c.suit <;>
        simp only [List.filter_cons, hs, List.length_cons] <;>
        simp <;> omega

theorem setAllDown_length (l : List Card) :
    (setAllDown l).length = l.length := by
  simp [setAllDown]

theorem setAllDown_facedown (l : List Card) :
    ∀ c ∈ setAllDown l, c.faceUp = false := by
  intro c hc
  obtain ⟨a, -, rfl⟩ := List.mem_map.mp hc
  rfl

theorem arrangeStock_length (cards : List Card) (d : Difficulty) (g : Rng) :
    (arrangeStock cards d g).1.length = cards.length := by
  cases d with
  | easy =>
      unfold arrangeStock
      have ha0 := attachDraws_length cards g
      rcases ha : attachDraws cards g with ⟨keyed, g1⟩
      rw [ha] at ha0
      dsimp only
      rw [setAllDown_length, List.length_map, length_stableSortBy]
      simpa using ha0
  | medium =>
      unfold arrangeStock
      have hperm := pyShuffle_perm (chunksOf4 (stableSortBy medKeyLt cards)) g
      rcases hs : pyShuffle (chunksOf4 (stableSortBy medKeyLt cards)) g
        with ⟨shuffled, g1⟩
      rw [hs] at hperm
      dsimp only
      rw [setAllDown_length, List.length_flatten]
      have h1 : sumLen shuffled =
          sumLen (chunksOf4 (stableSortBy medKeyLt cards)) :=
        sumLen_perm _ _ hperm
      have h2 := chunksOf4_sumLen (stableSortBy medKeyLt cards).length
        (stableSortBy medKeyLt cards) le_rfl
      show sumLen shuffled = cards.length
      rw [h1, h2, length_stableSortBy]
  | hard =>
      unfold arrangeStock
      have hperm := pyShuffle_perm (suitOrder.flatMap (fun s =>
        analyzeSuitDependencies (stableSortBy rankLt
          (cards.filter (fun c => c.suit == s))))) g
      rcases hs : pyShuffle (suitOrder.flatMap (fun s =>
          analyzeSuitDependencies (stableSortBy rankLt
            (cards.filter (fun c => c.suit == s))))) g with ⟨shuffled, g1⟩
      rw [hs] at hperm
      dsimp only
      have hlen := interleave_length (sumLen shuffled) shuffled [] g1 le_rfl
      rcases hi : interleave (sumLen shuffled) shuffled [] g1
        with ⟨arranged, g2⟩
      rw [hi] at hlen
      dsimp only
      rw [setAllDown_length]
      simp only [List.length_nil, Nat.zero_add] at hlen
      rw [hlen]
      have hsp : sumLen shuffled = sumLen (suitOrder.flatMap (fun s =>
          analyzeSuitDependencies (stableSortBy rankLt
            (cards.filter (fun c => c.suit == s))))) :=
        sumLen_perm _ _ hperm
      rw [hsp]
      have hexp : suitOrder.flatMap (fun s =>
          analyzeSuitDependencies (stableSortBy rankLt
            (cards.filter (fun c => c.suit == s)))) =
          analyzeSuitDependencies (stableSortBy rankLt
            (cards.filter (fun c => c.suit == Suit.hearts))) ++
          (analyzeSuitDependencies (stableSortBy rankLt
            (cards.filter (fun c => c.suit == Suit.diamonds))) ++
          (analyzeSuitDependencies (stableSortBy rankLt
            (cards.filter (fun c => c.suit == Suit.clubs))) ++
          (analyzeSuitDependencies (stableSortBy rankLt
            (cards.filter (fun c => c.suit == Suit.spades))) ++ []))) := by
        rfl
      rw [hexp]
      rw [sumLen_append, sumLen_append, sumLen_append, sumLen_append]
      rw [analyze_sumLen, analyze_sumLen, analyze_sumLen, analyze_sumLen]
      rw [length_stableSortBy, length_stableSortBy, length_stableSortBy,
        length_stableSortBy]
      have := filter_suits_partition cards
      simp only [sumLen, List.map_nil, List.sum_nil]
      omega

theorem arrangeStock_facedown (cards : List Card) (d : Difficulty) (g : Rng) :
    ∀ c ∈ (arrangeStock cards d g).1, c.faceUp = false := by
  cases d with
  | easy =>
      unfold arrangeStock
      rcases ha : attachDraws cards g with ⟨keyed, g1⟩
      dsimp only
      exact setAllDown_facedown _
  | medium =>
      unfold arrangeStock
      rcases hs : pyShuffle (chunksOf4 (stableSortBy medKeyLt cards)) g
        with ⟨shuffled, g1⟩
      dsimp only
      exact setAllDown_facedown _
  | hard =>
      unfold arrangeStock
      rcases hs : pyShuffle (suitOrder.flatMap (fun s =>
          analyzeSuitDependencies (stableSortBy rankLt
            (cards.filter (fun c => c.suit == s))))) g with ⟨shuffled, g1⟩
      dsimp only
      rcases hi : interleave (sumLen shuffled) shuffled [] g1
        with ⟨arranged, g2⟩
      dsimp only
      exact setAllDown_facedown _

/-- C6 (confirmed): for every difficulty and every ambient RNG state, a
successful deal has tableau column i (0-indexed) holding exactly i+1
cards, all face-down except the last, which is face-up; a stock of
exactly 24 cards, all face-down; and four empty foundations. -/
theorem C6_new_game_shape (d : Difficulty) (g : Rng)
    (tab fnd : List (List Card)) (stk : List Card) (g' : Rng)
    (h : generate_solvable_game d g = some (tab, fnd, stk, g')) :
    tab.length = 7 ∧
    (∀ i, i < 7 → ∃ pile, tab.get? i = some pile ∧ pileShape pile (i + 1)) ∧
    fnd = [[], [], [], []] ∧
    stk.length = 24 ∧ (∀ c ∈ stk, c.faceUp = false) := by
  unfold generate_solvable_game at h
  have hlens := organizeCards_suit_lengths d g
  rcases horg : organizeCards createDeck d g with ⟨org, g1⟩
  rw [horg] at hlens h
  dsimp only at hlens h
  cases hbt : buildTableau org d g1 with
  | none =>
      rw [hbt] at h
      exact absurd h (by simp)
  | some trip =>
      rcases trip with ⟨piles, rest2⟩
      rcases rest2 with ⟨remaining, g2⟩
      rw [hbt] at h
      dsimp only at h
      rcases harr : arrangeStock remaining d g2 with ⟨stk0, g3⟩
      rw [harr] at h
      dsimp only at h
      have h4 := Option.some.inj h
      have htab : piles = tab := congrArg (fun t => t.1) h4
      have hfnd : fnd = [[], [], [], []] :=
        (congrArg (fun t => t.2.1) h4).symm
      have hstk : stk0 = stk := congrArg (fun t => t.2.2.1) h4
      -- dissect buildTableau
      unfold buildTableau at hbt
      rcases hex : extractBases org (reserveCount d) with ⟨bases, o1⟩
      rw [hex] at hbt
      dsimp only at hbt
      cases hbp : buildPiles d [1, 2, 3, 4, 5, 6, 7] o1 g1 with
      | none =>
          rw [hbp] at hbt
          exact absurd hbt (by simp)
      | some trip2 =>
          rcases trip2 with ⟨piles2, rest3⟩
          rcases rest3 with ⟨o2, g2'⟩
          rw [hbp] at hbt
          dsimp only at hbt
          have h5 := Option.some.inj hbt
          have hp2 : piles2 = piles := congrArg (fun t => t.1) h5
          have hrem : o2.flattenSuits ++ bases = remaining :=
            congrArg (fun t => t.2.1) h5
          have hspec := buildPiles_spec d [1, 2, 3, 4, 5, 6, 7] o1 g1
            piles2 o2 g2' (by decide) hbp
          -- sizes from the organize/extract stage
          have hr13 : reserveCount d ≤ 13 := by cases d <;> decide
          have hex_spec := extractBases_spec org (reserveCount d) hr13
            hlens.1 hlens.2.1 hlens.2.2.1 hlens.2.2.2
          have hbases : bases = (extractBases org (reserveCount d)).1 :=
            (congrArg (fun t => t.1) hex).symm
          have ho1 : o1 = (extractBases org (reserveCount d)).2 :=
            (congrArg (fun t => t.2) hex).symm
          have hsum : [1, 2, 3, 4, 5, 6, 7].sum = 28 := rfl
          have hsize : o2.size + 28 = o1.size := by
            have := hspec.2.2
            rw [hsum] at this
            exact this
          have hstklen : stk.length = 24 := by
            have hal := arrangeStock_length remaining d g2
            rw [harr] at hal
            have hal' : stk0.length = remaining.length := by simpa using hal
            have hreml : remaining.length = 24 := by
              rw [← hrem, List.length_append, flattenSuits_length]
              have e1 := hex_spec.1
              have e2 := hex_spec.2
              rw [← hbases] at e1
              rw [← ho1] at e2
              omega
            rw [← hstk, hal']
            exact hreml
          refine ⟨?_, ?_, hfnd, hstklen, ?_⟩
          · rw [← htab, ← hp2, hspec.1]
            rfl
          · intro i hi
            have hget : [1, 2, 3, 4, 5, 6, 7].get? i = some (i + 1) := by
              interval_cases i <;> rfl
            obtain ⟨pile, hpile, hshape⟩ := hspec.2.1 i (i + 1) hget
            refine ⟨pile, ?_, hshape⟩
            rw [← htab, ← hp2]
            exact hpile
          · intro c hc
            have := arrangeStock_facedown remaining d g2
            rw [harr] at this
            exact this c (by rw [hstk]; exact hc)


theorem C6_new_game_shape_witness :
    ([[{ suit := Suit.hearts, rank := Rank.king, faceUp := true }],
 [{ suit := Suit.hearts, rank := Rank.queen, faceUp := false },
  { suit := Suit.hearts, rank := Rank.jack, faceUp := true }],
 [{ suit := Suit.diamonds, rank := Rank.king, faceUp := false },
  { suit := Suit.hearts, rank := Rank.ten, faceUp := false },
  { suit := Suit.hearts, rank := Rank.nine, faceUp := true }],
 [{ suit := Suit.diamonds, rank := Rank.queen, faceUp := false },
  { suit := Suit.hearts, rank := Rank.eight, faceUp := false },
  { suit := Suit.hearts, rank := Rank.seven, faceUp := false },
  { suit := Suit.hearts, rank := Rank.six, faceUp := true }],
 [{ suit := Suit.diamonds, rank := Rank.jack, faceUp := false },
  { suit := Suit.hearts, rank := Rank.five, faceUp := false },
  { suit := Suit.hearts, rank := Rank.four, faceUp := false },
  { suit := Suit.hearts, rank := Rank.three, faceUp := false },
  { suit := Suit.diamonds, rank := Rank.ten, faceUp := true }],
 [{ suit := Suit.clubs, rank := Rank.king, faceUp := false },
  { suit := Suit.diamonds, rank := Rank.nine, faceUp := false },
  { suit := Suit.diamonds, rank := Rank.eight, faceUp := false },
  { suit := Suit.diamonds, rank := Rank.seven, faceUp := false },
  { suit := Suit.diamonds, rank := Rank.six, faceUp := false },
  { suit := Suit.diamonds, rank := Rank.five, faceUp := true }],
 [{ suit := Suit.clubs, rank := Rank.queen, faceUp := false },
  { suit := Suit.diamonds, rank := Rank.four, faceUp := false },
  { suit := Suit.diamonds, rank := Rank.three, faceUp := false },
  { suit := Suit.clubs, rank := Rank.jack, faceUp := false },
  { suit := Suit.clubs, rank := Rank.ten, faceUp := false },
  { suit := Suit.clubs, rank := Rank.nine, faceUp := false },
  { suit := Suit.clubs, rank := Rank.eight, faceUp := true }]] : List (List Card)).length = 7 ∧
    (∀ i, i < 7 → ∃ pile,
      ([[{ suit := Suit.hearts, rank := Rank.king, faceUp := true }],
 [{ suit := Suit.hearts, rank := Rank.queen, faceUp := false },
  { suit := Suit.hearts, rank := Rank.jack, faceUp := true }],
 [{ suit := Suit.diamonds, rank := Rank.king, faceUp := false },
  { suit := Suit.hearts, rank := Rank.ten, faceUp := false },
  { suit := Suit.hearts, rank := Rank.nine, faceUp := true }],
 [{ suit := Suit.diamonds, rank := Rank.queen, faceUp := false },
  { suit := Suit.hearts, rank := Rank.eight, faceUp := false },
  { suit := Suit.hearts, rank := Rank.seven, faceUp := false },
  { suit := Suit.hearts, rank := Rank.six, faceUp := true }],
 [{ suit := Suit.diamonds, rank := Rank.jack, faceUp := false },
  { suit := Suit.hearts, rank := Rank.five, faceUp := false },
  { suit := Suit.hearts, rank := Rank.four, faceUp := false },
  { suit := Suit.hearts, rank := Rank.three, faceUp := false },
  { suit := Suit.diamonds, rank := Rank.ten, faceUp := true }],
 [{ suit := Suit.clubs, rank := Rank.king, faceUp := false },
  { suit := Suit.diamonds, rank := Rank.nine, faceUp := false },
  { suit := Suit.diamonds, rank := Rank.eight, faceUp := false },
  { suit := Suit.diamonds, rank := Rank.seven, faceUp := false },
  { suit := Suit.diamonds, rank := Rank.six, faceUp := false },
  { suit := Suit.diamonds, rank := Rank.five, faceUp := true }],
 [{ suit := Suit.clubs, rank := Rank.queen, faceUp := false },
  { suit := Suit.diamonds, rank := Rank.four, faceUp := false },
  { suit := Suit.diamonds, rank := Rank.three, faceUp := false },
  { suit := Suit.clubs, rank := Rank.jack, faceUp := false },
  { suit := Suit.clubs, rank := Rank.ten, faceUp := false },
  { suit := Suit.clubs, rank := Rank.nine, faceUp := false },
  { suit := Suit.clubs, rank := Rank.eight, faceUp := true }]] : List (List Card)).get? i = some pile ∧ pileShape pile (i + 1)) ∧
    ([[], [], [], []] : List (List Card)) = [[], [], [], []] ∧
    ([{ suit := Suit.hearts, rank := Rank.ace, faceUp := false },
 { suit := Suit.diamonds, rank := Rank.ace, faceUp := false },
 { suit := Suit.clubs, rank := Rank.ace, faceUp := false },
 { suit := Suit.spades, rank := Rank.ace, faceUp := false },
 { suit := Suit.hearts, rank := Rank.two, faceUp := false },
 { suit := Suit.diamonds, rank := Rank.two, faceUp := false },
 { suit := Suit.clubs, rank := Rank.two, faceUp := false },
 { suit := Suit.spades, rank := Rank.two, faceUp := false },
 { suit := Suit.clubs, rank := Rank.three, faceUp := false },
 { suit := Suit.clubs, rank := Rank.four, faceUp := false },
 { suit := Suit.clubs, rank := Rank.five, faceUp := false },
 { suit := Suit.clubs, rank := Rank.six, faceUp := false },
 { suit := Suit.clubs, rank := Rank.seven, faceUp := false },
 { suit := Suit.spades, rank := Rank.three, faceUp := false },
 { suit := Suit.spades, rank := Rank.four, faceUp := false },
 { suit := Suit.spades, rank := Rank.five, faceUp := false },
 { suit := Suit.spades, rank := Rank.six, faceUp := false },
 { suit := Suit.spades, rank := Rank.seven, faceUp := false },
 { suit := Suit.spades, rank := Rank.eight, faceUp := false },
 { suit := Suit.spades, rank := Rank.nine, faceUp := false },
 { suit := Suit.spades, rank := Rank.ten, faceUp := false },
 { suit := Suit.spades, rank := Rank.jack, faceUp := false },
 { suit := Suit.spades, rank := Rank.queen, faceUp := false },
 { suit := Suit.spades, rank := Rank.king, faceUp := false }] : List Card).length = 24 ∧
    (∀ c ∈ ([{ suit := Suit.hearts, rank := Rank.ace, faceUp := false },
 { suit := Suit.diamonds, rank := Rank.ace, faceUp := false },
 { suit := Suit.clubs, rank := Rank.ace, faceUp := false },
 { suit := Suit.spades, rank := Rank.ace, faceUp := false },
 { suit := Suit.hearts, rank := Rank.two, faceUp := false },
 { suit := Suit.diamonds, rank := Rank.two, faceUp := false },
 { suit := Suit.clubs, rank := Rank.two, faceUp := false },
 { suit := Suit.spades, rank := Rank.two, faceUp := false },
 { suit := Suit.clubs, rank := Rank.three, faceUp := false },
 { suit := Suit.clubs, rank := Rank.four, faceUp := false },
 { suit := Suit.clubs, rank := Rank.five, faceUp := false },
 { suit := Suit.clubs, rank := Rank.six, faceUp := false },
 { suit := Suit.clubs, rank := Rank.seven, faceUp := false },
 { suit := Suit.spades, rank := Rank.three, faceUp := false },
 { suit := Suit.spades, rank := Rank.four, faceUp := false },
 { suit := Suit.spades, rank := Rank.five, faceUp := false },
 { suit := Suit.spades, rank := Rank.six, faceUp := false },
 { suit := Suit.spades, rank := Rank.seven, faceUp := false },
 { suit := Suit.spades, rank := Rank.eight, faceUp := false },
 { suit := Suit.spades, rank := Rank.nine, faceUp := false },
 { suit := Suit.spades, rank := Rank.ten, faceUp := false },
 { suit := Suit.spades, rank := Rank.jack, faceUp := false },
 { suit := Suit.spades, rank := Rank.queen, faceUp := false },
 { suit := Suit.spades, rank := Rank.king, faceUp := false }] : List Card), c.faceUp = false) :=
  C6_new_game_shape Difficulty.easy [0]
    [[{ suit := Suit.hearts, rank := Rank.king, faceUp := true }],
 [{ suit := Suit.hearts, rank := Rank.queen, faceUp := false },
  { suit := Suit.hearts, rank := Rank.jack, faceUp := true }],
 [{ suit := Suit.diamonds, rank := Rank.king, faceUp := false },
  { suit := Suit.hearts, rank := Rank.ten, faceUp := false },
  { suit := Suit.hearts, rank := Rank.nine, faceUp := true }],
 [{ suit := Suit.diamonds, rank := Rank.queen, faceUp := false },
  { suit := Suit.hearts, rank := Rank.eight, faceUp := false },
  { suit := Suit.hearts, rank := Rank.seven, faceUp := false },
  { suit := Suit.hearts, rank := Rank.six, faceUp := true }],
 [{ suit := Suit.diamonds, rank := Rank.jack, faceUp := false },
  { suit := Suit.hearts, rank := Rank.five, faceUp := false },
  { suit := Suit.hearts, rank := Rank.four, faceUp := false },
  { suit := Suit.hearts, rank := Rank.three, faceUp := false },
  { suit := Suit.diamonds, rank := Rank.ten, faceUp := true }],
 [{ suit := Suit.clubs, rank := Rank.king, faceUp := false },
  { suit := Suit.diamonds, rank := Rank.nine, faceUp := false },
  { suit := Suit.diamonds, rank := Rank.eight, faceUp := false },
  { suit := Suit.diamonds, rank := Rank.seven, faceUp := false },
  { suit := Suit.diamonds, rank := Rank.six, faceUp := false },
  { suit := Suit.diamonds, rank := Rank.five, faceUp := true }],
 [{ suit := Suit.clubs, rank := Rank.queen, faceUp := false },
  { suit := Suit.diamonds, rank := Rank.four, faceUp := false },
  { suit := Suit.diamonds, rank := Rank.three, faceUp := false },
  { suit := Suit.clubs, rank := Rank.jack, faceUp := false },
  { suit := Suit.clubs, rank := Rank.ten, faceUp := false },
  { suit := Suit.clubs, rank := Rank.nine, faceUp := false },
  { suit := Suit.clubs, rank := Rank.eight, faceUp := true }]]
    [[], [], [], []]
    [{ suit := Suit.hearts, rank := Rank.ace, faceUp := false },
 { suit := Suit.diamonds, rank := Rank.ace, faceUp := false },
 { suit := Suit.clubs, rank := Rank.ace, faceUp := false },
 { suit := Suit.spades, rank := Rank.ace, faceUp := false },
 { suit := Suit.hearts, rank := Rank.two, faceUp := false },
 { suit := Suit.diamonds, rank := Rank.two, faceUp := false },
 { suit := Suit.clubs, rank := Rank.two, faceUp := false },
 { suit := Suit.spades, rank := Rank.two, faceUp := false },
 { suit := Suit.clubs, rank := Rank.three, faceUp := false },
 { suit := Suit.clubs, rank := Rank.four, faceUp := false },
 { suit := Suit.clubs, rank := Rank.five, faceUp := false },
 { suit := Suit.clubs, rank := Rank.six, faceUp := false },
 { suit := Suit.clubs, rank := Rank.seven, faceUp := false },
 { suit := Suit.spades, rank := Rank.three, faceUp := false },
 { suit := Suit.spades, rank := Rank.four, faceUp := false },
 { suit := Suit.spades, rank := Rank.five, faceUp := false },
 { suit := Suit.spades, rank := Rank.six, faceUp := false },
 { suit := Suit.spades, rank := Rank.seven, faceUp := false },
 { suit := Suit.spades, rank := Rank.eight, faceUp := false },
 { suit := Suit.spades, rank := Rank.nine, faceUp := false },
 { suit := Suit.spades, rank := Rank.ten, faceUp := false },
 { suit := Suit.spades, rank := Rank.jack, faceUp := false },
 { suit := Suit.spades, rank := Rank.queen, faceUp := false },
 { suit := Suit.spades, rank := Rank.king, faceUp := false }]
    [] rfl

end SSolitaire
